import Mathlib

/-!
# Verification of the sovereign_agent plan-execution core

Shallow embedding of the `sovereign_agent` repository:

* `src/sovereign_agent/handlers/tooling_handler.py` — the sandboxed
  command handler (deny-list filter, sandbox copy, subprocess execution,
  success classification);
* `src/sovereign_agent/agent.py` (`SovereignAgent._execute_plan` and the
  session loop of `start_session`) — the plan executor;
* `src/sovereign_agent/core/state.py` (`SharedSessionState`) — session
  state and the flight-recorder audit log;
* `src/sovereign_agent/core/models.py` — the pydantic data model;
* `src/sovereign_agent/core/cognitive_core.py` (`CognitiveCore.orchestrate`)
  — plan-structure validation of the Planner/LLM output.

Python dictionaries are modelled as insertion-ordered association lists,
Python exceptions as `Except`, machine-external effects (subprocess,
temporary directories, file writes, the LLM) as explicit parameters.
Strings are modelled over their character lists; the Python `re`/`str`
whitespace and word-character classes are modelled on their ASCII part
(every string the deny-list or the claims mention is ASCII).
-/

namespace Sovereign

/-- Python JSON-ish runtime value (what `json.loads` / the LLM client
produce): strings, numbers (modelled as rationals — the claims never
depend on float rounding), booleans, `None`, lists, dicts. -/
inductive JVal where
  | str (s : String)
  | num (q : Rat)
  | bool (b : Bool)
  | null
  | arr (xs : List JVal)
  | obj (fs : List (String × JVal))

/-- `d.get(k)` on a Python dict modelled as an association list
(first binding wins; `pySet` keeps keys unique). -/
def pyGet {α : Type} (d : List (String × α)) (k : String) : Option α :=
  (d.find? (fun p => p.1 == k)).map Prod.snd

/-- `d[k] = v` on a Python dict: replace in place if the key exists
(Python dicts keep insertion order), else append. -/
def pySet {α : Type} (d : List (String × α)) (k : String) (v : α) :
    List (String × α) :=
  if d.any (fun p => p.1 == k) then
    d.map (fun p => if p.1 == k then (k, v) else p)
  else d ++ [(k, v)]

/-- `del d[k]` on a Python dict. -/
def pyDel {α : Type} (d : List (String × α)) (k : String) :
    List (String × α) :=
  d.filter (fun p => p.1 != k)

/-- Python whitespace (`str.strip` / `re` class `\s`), ASCII part:
space, tab, newline, carriage return, vertical tab, form feed. -/
def isPyWS (c : Char) : Bool :=
  c == ' ' || c == '\t' || c == '\n' || c == '\r' ||
  c == Char.ofNat 11 || c == Char.ofNat 12

/-- Python `str.strip()`. -/
def pyStrip (s : String) : String :=
  String.mk (((s.toList.dropWhile isPyWS).reverse.dropWhile isPyWS).reverse)

/-- Python `str.lower()` (ASCII part). -/
def pyLower (s : String) : String :=
  String.mk (s.toList.map Char.toLower)

/-- Python `needle in hay` substring test, on character lists. -/
def containsSub (needle : List Char) : List Char → Bool
  | [] => needle.isPrefixOf []
  | c :: t => needle.isPrefixOf (c :: t) || containsSub needle t

/-! ## The deny-list regex of `tooling_handler.py`

`DANGEROUS_PATTERNS = [r'(^|\s)rm\s+-rf', r'(^|\s)dd\s+', r'(^|\s)mkfs',
 r'(^|\s)chmod\s+\d{3}\s+/', r'(^|\s)shutdown\b', r'(^|\s)reboot\b']`
compiled with `re.IGNORECASE` and applied with `.search`.

In every pattern the token after a `\s+` can never itself be matched by
`\s` (it is `-`, a digit, or `/`), so the regex engine's backtracking
coincides with maximal munch: `\s+` is modelled as "one whitespace
character, then drop all following whitespace". -/

/-- Case-insensitive literal match at the head of the input, returning
the rest on success (`literal` is given in lowercase). -/
def matchLitCI : List Char → List Char → Option (List Char)
  | [], cs => some cs
  | l :: ls, c :: cs => if c.toLower == l then matchLitCI ls cs else none
  | _ :: _, [] => none

/-- `\s+` (maximal munch, see above). -/
def skipWS1 : List Char → Option (List Char)
  | c :: cs => if isPyWS c then some (cs.dropWhile isPyWS) else none
  | [] => none

/-- `\d{3}` — exactly three digits. -/
def match3Digits : List Char → Option (List Char)
  | a :: b :: c :: rest =>
    if a.isDigit && b.isDigit && c.isDigit then some rest else none
  | _ => none

/-- `re` word character `\w` (ASCII part). -/
def isWordChar (c : Char) : Bool :=
  c.isAlphanum || c == '_'

/-- `\b` immediately after a word character: next char is absent or not
a word character. -/
def atBoundary : List Char → Bool
  | [] => true
  | c :: _ => !(isWordChar c)

/-- `rm\s+-rf` at the current position. -/
def patRmRf (cs : List Char) : Bool :=
  (((matchLitCI ['r', 'm'] cs).bind skipWS1).bind
    (matchLitCI ['-', 'r', 'f'])).isSome

/-- `dd\s+` at the current position. -/
def patDd (cs : List Char) : Bool :=
  ((matchLitCI ['d', 'd'] cs).bind skipWS1).isSome

/-- `mkfs` at the current position. -/
def patMkfs (cs : List Char) : Bool :=
  (matchLitCI ['m', 'k', 'f', 's'] cs).isSome

/-- `chmod\s+\d{3}\s+/` at the current position. -/
def patChmod (cs : List Char) : Bool :=
  (((((matchLitCI ['c', 'h', 'm', 'o', 'd'] cs).bind skipWS1).bind
    match3Digits).bind skipWS1).bind (matchLitCI ['/'])).isSome

/-- `shutdown\b` at the current position. -/
def patShutdown (cs : List Char) : Bool :=
  match matchLitCI ['s', 'h', 'u', 't', 'd', 'o', 'w', 'n'] cs with
  | some rest => atBoundary rest
  | none => false

/-- `reboot\b` at the current position. -/
def patReboot (cs : List Char) : Bool :=
  match matchLitCI ['r', 'e', 'b', 'o', 'o', 't'] cs with
  | some rest => atBoundary rest
  | none => false

/-- The alternation of the six dangerous patterns, with the `(^|\s)`
prefix already consumed. -/
def patAfterAnchor (cs : List Char) : Bool :=
  patRmRf cs || patDd cs || patMkfs cs || patChmod cs ||
  patShutdown cs || patReboot cs

/-- Search for `(\s)pattern` at every position strictly inside the
string: the `\s` alternative of the anchor consumes one character. -/
def dangerousAux : List Char → Bool
  | [] => false
  | c :: cs => (isPyWS c && patAfterAnchor cs) || dangerousAux cs

/-- `DANGEROUS_RE.search(s)` as a boolean: some pattern matches at the
start of the string (the `^` alternative) or right after a whitespace
character (the `\s` alternative). -/
def dangerousSearch (s : String) : Bool :=
  patAfterAnchor s.toList || dangerousAux s.toList

/-- `ToolingHandler._is_safe`. -/
def is_safe (command : String) : Bool :=
  if command.isEmpty then false
  else if (pyStrip command).isEmpty then false
  else if dangerousSearch command then false
  else true

/-! ## `ToolingHandler.execute` -/

/-- `AgentResponse` of `core/models.py` (the two `None`-coercion
validators are identities here because Lean strings cannot be `None`). -/
structure AgentResponse where
  success : Bool
  content : String
  status_update : String := ""
  artifacts_created : List (String × JVal) := []
  state_updates : List (String × JVal) := []

/-- Captured outcome of `subprocess.run` (`stdout`/`stderr` after the
`or ''` coercions of the handler). -/
structure RunResult where
  stdout : String
  stderr : String
  returncode : Int

/-- What happens inside the handler's `try` block once the sandbox
directory exists: the workspace copy may raise, the subprocess may
finish, time out, or raise. -/
inductive SandboxRun where
  | copyFailed (msg : String)
  | finished (r : RunResult)
  | timedOut
  | execRaised (msg : String)

/-- The error-stream indicators of `ToolingHandler.execute`. -/
def ERROR_INDICATORS : List String :=
  ["error:", "invalid", "command not found", "usage:",
   "illegal option", "invalid option"]

/-- `has_error_indicators`: the error stream is non-empty (truthy) and
some indicator occurs in its lowercased text. -/
def has_error_indicators (stderr : String) : Bool :=
  (!stderr.isEmpty) &&
    ERROR_INDICATORS.any
      (fun ind => containsSub ind.toList (pyLower stderr).toList)

/-- `is_success`: exit code 0 and no error indicators. -/
def is_success (exit_code : Int) (stderr : String) : Bool :=
  (exit_code == 0) && !has_error_indicators stderr

/-- Observable outcome of one `ToolingHandler.execute` call:
whether the ephemeral sandbox directory was created (`tempfile.mkdtemp`
reached), whether a subprocess was started (`subprocess.run` reached),
and the returned `AgentResponse`. -/
structure ToolExec where
  sandboxCreated : Bool
  spawned : Bool
  response : AgentResponse

/-- `ToolingHandler.execute`.  `args` values are `Option String`
(`none` models Python `None`); `format` abstracts
`OutputFormatter.format_command_result` (pure presentation), `tmpdir`
the name `tempfile.mkdtemp` returns, and `run` the workspace copy plus
subprocess execution inside the `try` block.  The function never
raises: every Python path out of `execute` returns an `AgentResponse`.
-/
def tooling_execute (args : List (String × Option String))
    (format : String → Int → String → String → String)
    (tmpdir : String) (run : String → SandboxRun) : ToolExec :=
  let noCommand : ToolExec :=
    ⟨false, false,
      { success := false, content := "No command specified.",
        status_update := "no-command" }⟩
  match pyGet args "command" with
  | none => noCommand
  | some none => noCommand
  | some (some cmd) =>
    if cmd.isEmpty then noCommand
    else if is_safe cmd = false then
      ⟨false, false,
        { success := false,
          content := "Command appears dangerous or disallowed: " ++ cmd,
          status_update := "dangerous-command" }⟩
    else
      match run cmd with
      | .copyFailed msg =>
        ⟨true, false,
          { success := false,
            content := "Exception during execution: " ++ msg,
            status_update := "error" }⟩
      | .timedOut =>
        ⟨true, true,
          { success := false, content := "Command timed out.",
            status_update := "timeout" }⟩
      | .execRaised msg =>
        ⟨true, true,
          { success := false,
            content := "Exception during execution: " ++ msg,
            status_update := "error" }⟩
      | .finished r =>
        let ok := is_success r.returncode r.stderr
        ⟨true, true,
          { success := ok,
            content := format cmd r.returncode r.stdout r.stderr,
            status_update := if ok then "completed" else "failed",
            artifacts_created :=
              [("sandbox_path", .str tmpdir),
               ("exit_code", .num r.returncode),
               ("has_stderr", .bool (!(pyStrip r.stderr).isEmpty))] }⟩

/-! ## Lemmas about the handler -/

lemma pyStrip_isEmpty_of_allWS (cmd : String)
    (h : cmd.toList.all isPyWS = true) : (pyStrip cmd).isEmpty = true := by
  have h1 : cmd.toList.dropWhile isPyWS = [] := by
    rw [List.dropWhile_eq_nil_iff]
    intro x hx
    exact List.all_eq_true.mp h x hx
  unfold pyStrip
  rw [h1]
  rfl

lemma dangerousSearch_empty : dangerousSearch "" = false := by decide

lemma isEmpty_false_of_dangerous (cmd : String)
    (hd : dangerousSearch cmd = true) : cmd.isEmpty = false := by
  cases he : cmd.isEmpty
  · rfl
  · exfalso
    have hc : cmd = "" := (String.isEmpty_iff cmd).mp he
    subst hc
    exact absurd hd (by decide)

lemma is_safe_false_of_dangerous (cmd : String)
    (hd : dangerousSearch cmd = true) : is_safe cmd = false := by
  unfold is_safe
  rw [isEmpty_false_of_dangerous cmd hd]
  cases hs : (pyStrip cmd).isEmpty
  · simp [hd]
  · simp

lemma no_indicator_in_empty :
    ∀ ind ∈ ERROR_INDICATORS, containsSub ind.toList [] = false := by
  decide

lemma is_success_iff (ec : Int) (st : String) :
    is_success ec st = true ↔
      (ec = 0 ∧ ∀ ind ∈ ERROR_INDICATORS,
        containsSub ind.toList (pyLower st).toList = false) := by
  constructor
  · intro h
    unfold is_success at h
    rw [Bool.and_eq_true] at h
    obtain ⟨h0, hn⟩ := h
    refine ⟨beq_iff_eq.mp h0, fun ind hmem => ?_⟩
    by_contra hcontra
    have hc' : containsSub ind.toList (pyLower st).toList = true := by
      cases hx : containsSub ind.toList (pyLower st).toList
      · exact absurd hx hcontra
      · rfl
    have hne : st.isEmpty = false := by
      cases hse : st.isEmpty
      · rfl
      · exfalso
        have hst : st = "" := (String.isEmpty_iff st).mp hse
        subst hst
        have hni := no_indicator_in_empty ind hmem
        have htl : (pyLower "").toList = [] := rfl
        rw [htl, hni] at hc'
        exact absurd hc' (by decide)
    have hhas : has_error_indicators st = true := by
      unfold has_error_indicators
      rw [hne]
      simp only [Bool.not_false, Bool.true_and]
      exact List.any_eq_true.mpr ⟨ind, hmem, hc'⟩
    rw [hhas] at hn
    exact absurd hn (by decide)
  · rintro ⟨h0, hind⟩
    have hhas : has_error_indicators st = false := by
      unfold has_error_indicators
      cases hse : st.isEmpty
      · simp only [Bool.not_false, Bool.true_and]
        rw [List.any_eq_false]
        intro x hx
        rw [hind x hx]
        exact Bool.false_ne_true
      · simp
    show ((ec == 0) && !has_error_indicators st) = true
    rw [hhas, h0]
    decide

/-! ## Claim theorems for the handler -/

/-- C9: if the `command` key is absent from the args mapping,
`ToolingHandler.execute` returns a failed result tagged `no-command`;
no sandbox is created and no subprocess is spawned.  The embedding is a
total function (no `Except` anywhere on this path), mirroring that the
Python code returns before any fallible operation, so no exception can
be raised. -/
theorem C9_missing_command_no_command
    (args : List (String × Option String))
    (format : String → Int → String → String → String)
    (tmpdir : String) (run : String → SandboxRun)
    (h : pyGet args "command" = none) :
    (tooling_execute args format tmpdir run).response.success = false ∧
    (tooling_execute args format tmpdir run).response.status_update =
      "no-command" ∧
    (tooling_execute args format tmpdir run).spawned = false ∧
    (tooling_execute args format tmpdir run).sandboxCreated = false := by
  simp [tooling_execute, h]

/-- Witness for C9 at the concrete empty args mapping. -/
theorem C9_missing_command_no_command_witness :
    (tooling_execute [] (fun _ _ _ _ => "") "" (fun _ => .timedOut)
      ).response.status_update = "no-command" :=
  (C9_missing_command_no_command [] (fun _ _ _ _ => "") ""
    (fun _ => .timedOut) rfl).2.1

/-- C10: a whitespace-only (non-empty) `command` string fails the
safety filter and is rejected as `dangerous-command`, whereas the empty
string `''` and Python `None` are caught earlier by the truthiness test
and yield `no-command`. -/
theorem C10_blank_command_classification :
    (∀ (args : List (String × Option String))
       (format : String → Int → String → String → String)
       (tmpdir : String) (run : String → SandboxRun) (cmd : String),
      pyGet args "command" = some (some cmd) → cmd.isEmpty = false →
      cmd.toList.all isPyWS = true →
      (tooling_execute args format tmpdir run).response.status_update =
        "dangerous-command" ∧
      (tooling_execute args format tmpdir run).response.success = false) ∧
    (∀ (args : List (String × Option String))
       (format : String → Int → String → String → String)
       (tmpdir : String) (run : String → SandboxRun),
      pyGet args "command" = some (some "") →
      (tooling_execute args format tmpdir run).response.status_update =
        "no-command") ∧
    (∀ (args : List (String × Option String))
       (format : String → Int → String → String → String)
       (tmpdir : String) (run : String → SandboxRun),
      pyGet args "command" = some none →
      (tooling_execute args format tmpdir run).response.status_update =
        "no-command") := by
  refine ⟨?_, ?_, ?_⟩
  · intro args format tmpdir run cmd hc hne hws
    have hsafe : is_safe cmd = false := by
      unfold is_safe
      rw [hne, pyStrip_isEmpty_of_allWS cmd hws]
      simp
    simp [tooling_execute, hc, hne, hsafe]
  · intro args format tmpdir run hc
    unfold tooling_execute
    rw [hc]
    rfl
  · intro args format tmpdir run hc
    unfold tooling_execute
    rw [hc]

/-- Witness for C10: the one-space command is rejected as
`dangerous-command`; the empty command and the `None` command yield
`no-command`. -/
theorem C10_blank_command_classification_witness :
    (tooling_execute [("command", some " ")] (fun _ _ _ _ => "") ""
      (fun _ => .timedOut)).response.status_update = "dangerous-command" ∧
    (tooling_execute [("command", some "")] (fun _ _ _ _ => "") ""
      (fun _ => .timedOut)).response.status_update = "no-command" ∧
    (tooling_execute [("command", none)] (fun _ _ _ _ => "") ""
      (fun _ => .timedOut)).response.status_update = "no-command" :=
  ⟨(C10_blank_command_classification.1 [("command", some " ")]
      (fun _ _ _ _ => "") "" (fun _ => .timedOut) " " rfl rfl (by decide)).1,
   C10_blank_command_classification.2.1 [("command", some "")]
      (fun _ _ _ _ => "") "" (fun _ => .timedOut) rfl,
   C10_blank_command_classification.2.2 [("command", none)]
      (fun _ _ _ _ => "") "" (fun _ => .timedOut) rfl⟩

/-- Concrete args mapping for the C2 counterexample. -/
def c2Args : List (String × Option String) := [("command", some "rm -rf /")]

/-- Concrete formatter for the C2 counterexample. -/
def c2Format : String → Int → String → String → String := fun _ _ _ _ => ""

/-- Concrete sandbox behaviour for the C2 counterexample (irrelevant:
it is never reached). -/
def c2Run : String → SandboxRun := fun _ => .timedOut

/-- C2 counterexample: for the deny-listed command `rm -rf /` the
handler does return `dangerous-command` and spawns nothing, but —
contrary to the claim — the sandbox directory copy of the workspace
does NOT occur: `ToolingHandler.execute` returns before
`tempfile.mkdtemp` and the copy loop are ever reached
(`tooling_handler.py` lines 34-35 precede lines 38-52). -/
theorem C2_counterexample :
    dangerousSearch "rm -rf /" = true ∧
    (tooling_execute c2Args c2Format "" c2Run).response.status_update =
      "dangerous-command" ∧
    (tooling_execute c2Args c2Format "" c2Run).response.success = false ∧
    (tooling_execute c2Args c2Format "" c2Run).spawned = false ∧
    (tooling_execute c2Args c2Format "" c2Run).sandboxCreated = false := by
  refine ⟨by decide, by decide, by decide, by decide, by decide⟩

/-- C2 as amended: for every args mapping whose `command` value matches
the deny-list, `ToolingHandler.execute` returns a failed result with
status `dangerous-command`, never spawns a subprocess, and does not
create the sandbox copy either — the command is rejected before the
sandbox is made. -/
theorem C2_amended_dangerous_rejected_before_sandbox
    (args : List (String × Option String))
    (format : String → Int → String → String → String)
    (tmpdir : String) (run : String → SandboxRun) (cmd : String)
    (hc : pyGet args "command" = some (some cmd))
    (hd : dangerousSearch cmd = true) :
    (tooling_execute args format tmpdir run).response.success = false ∧
    (tooling_execute args format tmpdir run).response.status_update =
      "dangerous-command" ∧
    (tooling_execute args format tmpdir run).spawned = false ∧
    (tooling_execute args format tmpdir run).sandboxCreated = false := by
  have hne := isEmpty_false_of_dangerous cmd hd
  have hsafe := is_safe_false_of_dangerous cmd hd
  simp [tooling_execute, hc, hne, hsafe]

/-- Witness for the amended C2 at the concrete command `rm -rf /`. -/
theorem C2_amended_dangerous_rejected_before_sandbox_witness :
    (tooling_execute c2Args c2Format "" c2Run).response.status_update =
      "dangerous-command" :=
  (C2_amended_dangerous_rejected_before_sandbox c2Args c2Format "" c2Run
    "rm -rf /" rfl (by decide)).2.1

/-- C4: on the subprocess path, the handler classifies the command as a
success exactly when the exit code is 0 and the lowercased error stream
contains none of the six indicators; in particular a command that exits
0 but writes `usage: foo` to its error stream yields a failed result. -/
theorem C4_success_classification :
    (∀ (args : List (String × Option String))
       (format : String → Int → String → String → String)
       (tmpdir : String) (run : String → SandboxRun)
       (cmd : String) (rr : RunResult),
      pyGet args "command" = some (some cmd) → cmd.isEmpty = false →
      is_safe cmd = true → run cmd = .finished rr →
      ((tooling_execute args format tmpdir run).response.success = true ↔
        (rr.returncode = 0 ∧ ∀ ind ∈ ERROR_INDICATORS,
          containsSub ind.toList (pyLower rr.stderr).toList = false))) ∧
    (∀ (args : List (String × Option String))
       (format : String → Int → String → String → String)
       (tmpdir : String) (run : String → SandboxRun)
       (cmd : String) (rr : RunResult),
      pyGet args "command" = some (some cmd) → cmd.isEmpty = false →
      is_safe cmd = true → run cmd = .finished rr →
      rr.returncode = 0 → rr.stderr = "usage: foo" →
      (tooling_execute args format tmpdir run).response.success = false) := by
  constructor
  · intro args format tmpdir run cmd rr hc hne hsafe hrun
    have hred :
        (tooling_execute args format tmpdir run).response.success =
          is_success rr.returncode rr.stderr := by
      simp [tooling_execute, hc, hne, hsafe, hrun]
    rw [hred]
    exact is_success_iff rr.returncode rr.stderr
  · intro args format tmpdir run cmd rr hc hne hsafe hrun h0 hstderr
    have hred :
        (tooling_execute args format tmpdir run).response.success =
          is_success rr.returncode rr.stderr := by
      simp [tooling_execute, hc, hne, hsafe, hrun]
    rw [hred, h0, hstderr]
    decide

/-- Witness for C4 at the concrete command `ls` with exit code 0 and
error stream `usage: foo`: classified as failed. -/
theorem C4_success_classification_witness :
    (tooling_execute [("command", some "ls")] (fun _ _ _ _ => "") "t"
      (fun _ => .finished ⟨"", "usage: foo", 0⟩)).response.success =
      false :=
  C4_success_classification.2 [("command", some "ls")]
    (fun _ _ _ _ => "") "t" (fun _ => .finished ⟨"", "usage: foo", 0⟩)
    "ls" ⟨"", "usage: foo", 0⟩ rfl rfl (by decide) rfl rfl rfl

/-! ## The plan executor of `agent.py`

`SovereignAgent._execute_plan` iterates the plan's steps, looks each
step's handler up in the registry, augments the step's `input_args`
with `__step_context` and `__previous_results`, dispatches, updates the
step's `status`/`result`, appends to conversation history and to the
flight-recorder audit log, and breaks on the first failure or on an
exception escaping a handler.  Handlers are modelled as functions
returning `Except String AgentResponse` (`error` = a raised exception,
covering `KeyboardInterrupt` and `Exception` alike — both `break`
without touching the state); printing is not modelled (pure
presentation). -/

/-- A value stored in the executor's `step_context` dict: either a
prior step's `response.content` or its `response.artifacts_created`. -/
inductive CtxVal where
  | content (s : String)
  | artifacts (a : List (String × JVal))

/-- A value of the (heterogeneous) `input_args` dict as the executor
sees it: an opaque planner-supplied value, or one of the two entries
the executor itself adds before dispatch. -/
inductive ArgVal where
  | raw (j : JVal)
  | stepContext (c : List (String × CtxVal))
  | previousResults (l : List (String × AgentResponse))

/-- `HandlerStepModel` of `core/models.py` (the `id` field, a fresh
UUID, is omitted: nothing in the executor reads it). -/
structure HandlerStepModel where
  handler_name : String
  step_goal : String
  input_args : List (String × ArgVal) := []
  status : String := "pending"
  result : Option AgentResponse := none

/-- `TaskPlan` of `core/models.py` (`plan_id` omitted as for steps;
`confidence` is a rational stand-in for the Python float — no claim
depends on float arithmetic). -/
structure TaskPlan where
  overall_goal : String
  steps : List HandlerStepModel
  confidence : Rat := 1
  reasoning : String := ""

/-- One record of the flight-recorder audit log: a snapshot of the
conversation history and the artifacts, as in
`SharedSessionState.save_flight_record`. -/
structure Snapshot where
  conversation : List (String × String)
  artifacts : List (String × JVal)

/-- The in-memory part of `SharedSessionState`: conversation history
(role/content pairs), artifacts, and the accumulated `records` list of
the flight file. -/
structure SharedSessionState where
  conversation_history : List (String × String)
  artifacts : List (String × JVal)
  flight_records : List Snapshot

/-- `SharedSessionState.add_to_history`. -/
def add_to_history (st : SharedSessionState) (role content : String) :
    SharedSessionState :=
  { st with conversation_history :=
      st.conversation_history ++ [(role, content)] }

/-- The snapshot `save_flight_record` appends. -/
def snapshotOf (st : SharedSessionState) : Snapshot :=
  ⟨st.conversation_history, st.artifacts⟩

/-- `SharedSessionState.save_flight_record`: appends the snapshot to
the in-memory `records` list and then attempts the file write, whose
failure (`write` returning `.error`) is swallowed by the
`try/except: pass` — the function always returns the updated state and
never raises. -/
def save_flight_record (st : SharedSessionState)
    (write : List Snapshot → Except String Unit) : SharedSessionState :=
  let st' := { st with flight_records :=
      st.flight_records ++ [snapshotOf st] }
  match write st'.flight_records with
  | .ok _ => st'
  | .error _ => st'

/-- A handler's `execute` as the executor calls it: goal, (augmented)
args, session state; `error` models a raised exception.  The one
concrete handler never mutates the session state, so handlers are
modelled as pure in the state. -/
def HandlerFn : Type :=
  String → List (String × ArgVal) → SharedSessionState →
    Except String AgentResponse

/-- Observable executor events.  `plannerRecovery` is the vocabulary
for "the executor invokes the Planner with a recovery request (failed
step's goal, failure content, overall goal)" — the spec asserts this
happens on failure; the embedded code never emits it. -/
inductive EEvent where
  | skipped (i : Nat) (handler_name : String)
  | dispatched (i : Nat) (handler_name goal : String)
      (args : List (String × ArgVal)) (outcome : Except String AgentResponse)
  | plannerRecovery (failed_goal failure_content overall_goal : String)

/-- The plan index an event concerns (`none` for a Planner recovery
invocation, which concerns the whole plan). -/
def EEvent.idx? : EEvent → Option Nat
  | .skipped i _ => some i
  | .dispatched i _ _ _ _ => some i
  | .plannerRecovery _ _ _ => none

/-- `e` is an invocation of the Planner with a recovery request. -/
def EEvent.isRecovery : EEvent → Bool
  | .plannerRecovery _ _ _ => true
  | _ => false

/-- `e` is a dispatch whose handler returned a result with
`success=false`. -/
def EEvent.isFailedDispatch : EEvent → Bool
  | .dispatched _ _ _ _ (.ok r) => !r.success
  | _ => false

/-- `e` is a dispatch whose handler returned a result (rather than
raising); exactly these steps reach a terminal `completed`/`failed`
status and get a history entry plus an audit-log append. -/
def EEvent.isReturnedDispatch : EEvent → Bool
  | .dispatched _ _ _ _ (.ok _) => true
  | _ => false

/-- The `__previous_results` list the executor builds from the already
processed steps: `{step_goal, result}` for every prior step whose
`result` is set (line 132-135 of `agent.py`). -/
def prevResultsOf (done : List HandlerStepModel) :
    List (String × AgentResponse) :=
  done.filterMap (fun s => s.result.map (fun r => (s.step_goal, r)))

/-- Result of a `_execute_plan` run: the final step list, the final
session state, and the event trace. -/
structure ExecResult where
  steps : List HandlerStepModel
  state : SharedSessionState
  events : List EEvent

/-- The augmented argument mapping the executor hands the handler: a
copy of the step's `input_args` with `__step_context` and
`__previous_results` set (lines 130-135 of `agent.py`); the step's own
`input_args` are not modified. -/
def enhancedArgs (step : HandlerStepModel) (ctx : List (String × CtxVal))
    (done : List HandlerStepModel) : List (String × ArgVal) :=
  pySet (pySet step.input_args "__step_context" (.stepContext ctx))
    "__previous_results" (.previousResults (prevResultsOf done))

/-- How a successful response at enumeration index `i` extends the
`step_context` dict (lines 141-143 of `agent.py`). -/
def ctxSucc (i : Nat) (ctx : List (String × CtxVal))
    (resp : AgentResponse) : List (String × CtxVal) :=
  pySet (pySet ctx ("step_" ++ toString (i + 1) ++ "_result")
      (.content resp.content))
    ("step_" ++ toString (i + 1) ++ "_artifacts")
    (.artifacts resp.artifacts_created)

/-- The history entry recorded after a returned step (line 154). -/
def statusMsgOf (goal status : String) : String :=
  "Step '" ++ goal ++ "' completed with status: " ++ status ++ "."

/-- The history entry recorded when a step fails (line 160). -/
def failMsgOf (goal content : String) : String :=
  "Step failed: " ++ goal ++ ". Error: " ++ content

/-- The loop body of `SovereignAgent._execute_plan` (lines 119-167).
Arguments: the remaining steps, the enumeration index `i`, the
accumulated `step_context`, the already processed steps (in order),
and the session state.  (The transient `status = "running"` assignment
of line 127 is observable only in the exception branch, where the loop
breaks before the status is overwritten; in the returned branches the
status is overwritten to `completed`/`failed` before anything reads
it.) -/
def execLoop (handlers : List (String × HandlerFn))
    (write : List Snapshot → Except String Unit) :
    List HandlerStepModel → Nat → List (String × CtxVal) →
    List HandlerStepModel → SharedSessionState → ExecResult
  | [], _, _, done, st => ⟨done, st, []⟩
  | step :: rest, i, ctx, done, st =>
    match pyGet handlers step.handler_name with
    | none =>
      -- handler not found: warn and continue
      let r := execLoop handlers write rest (i + 1) ctx (done ++ [step]) st
      ⟨r.steps, r.state, .skipped i step.handler_name :: r.events⟩
    | some h =>
      match h step.step_goal (enhancedArgs step ctx done) st with
      | .error e =>
        -- unexpected exception: break (no history entry, no audit record)
        ⟨done ++ { step with status := "running" } :: rest, st,
          [.dispatched i step.handler_name step.step_goal
            (enhancedArgs step ctx done) (.error e)]⟩
      | .ok resp =>
        if resp.success then
          let r := execLoop handlers write rest (i + 1)
            (ctxSucc i ctx resp)
            (done ++ [{ step with status := "completed", result := some resp }])
            (save_flight_record
              (add_to_history st "system"
                (statusMsgOf step.step_goal "completed")) write)
          ⟨r.steps, r.state,
            .dispatched i step.handler_name step.step_goal
              (enhancedArgs step ctx done) (.ok resp) :: r.events⟩
        else
          -- step failed: log and halt; no Planner recovery is invoked
          ⟨done ++ { step with status := "failed", result := some resp } :: rest,
            add_to_history
              (save_flight_record
                (add_to_history st "system"
                  (statusMsgOf step.step_goal "failed")) write)
              "system" (failMsgOf step.step_goal resp.content),
            [.dispatched i step.handler_name step.step_goal
              (enhancedArgs step ctx done) (.ok resp)]⟩

/-- `SovereignAgent._execute_plan`. -/
def execute_plan (handlers : List (String × HandlerFn))
    (write : List Snapshot → Except String Unit) (plan : TaskPlan)
    (st : SharedSessionState) : ExecResult :=
  execLoop handlers write plan.steps 0 [] [] st

/-- How one processed step (at absolute index `i`) extends the
`step_context` dict: successful steps contribute their content and
artifacts under `step_{i+1}_result` / `step_{i+1}_artifacts`, all
other steps contribute nothing. -/
def ctxStepUpdate (i : Nat) (ctx : List (String × CtxVal))
    (s : HandlerStepModel) : List (String × CtxVal) :=
  match s.result with
  | some r => if r.success then ctxSucc i ctx r else ctx
  | none => ctx

/-- Fold `ctxStepUpdate` over a list of processed steps starting at
absolute index `i`. -/
def ctxOfAux : Nat → List HandlerStepModel → List (String × CtxVal) →
    List (String × CtxVal)
  | _, [], ctx => ctx
  | i, s :: rest, ctx => ctxOfAux (i + 1) rest (ctxStepUpdate i ctx s)

/-- The `step_context` dict determined by a processed prefix of the
plan. -/
def ctxOf (processed : List HandlerStepModel) : List (String × CtxVal) :=
  ctxOfAux 0 processed []

/-- The `{step_goal, result}` pairs of exactly the `completed`
(successful) steps of a processed prefix — the spec's description of
`__previous_results`. -/
def completedPrevResults (l : List HandlerStepModel) :
    List (String × AgentResponse) :=
  l.filterMap (fun s =>
    if s.status == "completed" then s.result.map (fun r => (s.step_goal, r))
    else none)

/-- `[i, i+1, ..., i+n-1]`: the consecutive index list. -/
def idxList (i : Nat) : Nat → List Nat
  | 0 => []
  | n + 1 => i :: idxList (i + 1) n

/-! ## Branch equations for `execLoop` -/

lemma execLoop_nil (handlers : List (String × HandlerFn))
    (write : List Snapshot → Except String Unit)
    (i : Nat) (ctx : List (String × CtxVal))
    (done : List HandlerStepModel) (st : SharedSessionState) :
    execLoop handlers write [] i ctx done st = ⟨done, st, []⟩ := rfl

lemma execLoop_skip (handlers : List (String × HandlerFn))
    (write : List Snapshot → Except String Unit)
    (step : HandlerStepModel) (rest : List HandlerStepModel)
    (i : Nat) (ctx : List (String × CtxVal))
    (done : List HandlerStepModel) (st : SharedSessionState)
    (hh : pyGet handlers step.handler_name = none) :
    execLoop handlers write (step :: rest) i ctx done st =
      ⟨(execLoop handlers write rest (i + 1) ctx (done ++ [step]) st).steps,
       (execLoop handlers write rest (i + 1) ctx (done ++ [step]) st).state,
       .skipped i step.handler_name ::
         (execLoop handlers write rest (i + 1) ctx (done ++ [step]) st).events⟩ := by
  simp only [execLoop, hh]

lemma execLoop_raise (handlers : List (String × HandlerFn))
    (write : List Snapshot → Except String Unit)
    (step : HandlerStepModel) (rest : List HandlerStepModel)
    (i : Nat) (ctx : List (String × CtxVal))
    (done : List HandlerStepModel) (st : SharedSessionState)
    (h : HandlerFn) (e : String)
    (hh : pyGet handlers step.handler_name = some h)
    (hr : h step.step_goal (enhancedArgs step ctx done) st = .error e) :
    execLoop handlers write (step :: rest) i ctx done st =
      ⟨done ++ { step with status := "running" } :: rest, st,
        [.dispatched i step.handler_name step.step_goal
          (enhancedArgs step ctx done) (.error e)]⟩ := by
  simp only [execLoop, hh, hr]

lemma execLoop_ok_success (handlers : List (String × HandlerFn))
    (write : List Snapshot → Except String Unit)
    (step : HandlerStepModel) (rest : List HandlerStepModel)
    (i : Nat) (ctx : List (String × CtxVal))
    (done : List HandlerStepModel) (st : SharedSessionState)
    (h : HandlerFn) (resp : AgentResponse)
    (hh : pyGet handlers step.handler_name = some h)
    (hr : h step.step_goal (enhancedArgs step ctx done) st = .ok resp)
    (hs : resp.success = true) :
    execLoop handlers write (step :: rest) i ctx done st =
      ⟨(execLoop handlers write rest (i + 1) (ctxSucc i ctx resp)
          (done ++ [{ step with status := "completed", result := some resp }])
          (save_flight_record
            (add_to_history st "system"
              (statusMsgOf step.step_goal "completed")) write)).steps,
       (execLoop handlers write rest (i + 1) (ctxSucc i ctx resp)
          (done ++ [{ step with status := "completed", result := some resp }])
          (save_flight_record
            (add_to_history st "system"
              (statusMsgOf step.step_goal "completed")) write)).state,
       .dispatched i step.handler_name step.step_goal
           (enhancedArgs step ctx done) (.ok resp) ::
         (execLoop handlers write rest (i + 1) (ctxSucc i ctx resp)
          (done ++ [{ step with status := "completed", result := some resp }])
          (save_flight_record
            (add_to_history st "system"
              (statusMsgOf step.step_goal "completed")) write)).events⟩ := by
  simp only [execLoop, hh, hr, hs, if_true]

lemma execLoop_ok_fail (handlers : List (String × HandlerFn))
    (write : List Snapshot → Except String Unit)
    (step : HandlerStepModel) (rest : List HandlerStepModel)
    (i : Nat) (ctx : List (String × CtxVal))
    (done : List HandlerStepModel) (st : SharedSessionState)
    (h : HandlerFn) (resp : AgentResponse)
    (hh : pyGet handlers step.handler_name = some h)
    (hr : h step.step_goal (enhancedArgs step ctx done) st = .ok resp)
    (hs : resp.success = false) :
    execLoop handlers write (step :: rest) i ctx done st =
      ⟨done ++ { step with status := "failed", result := some resp } :: rest,
        add_to_history
          (save_flight_record
            (add_to_history st "system"
              (statusMsgOf step.step_goal "failed")) write)
          "system" (failMsgOf step.step_goal resp.content),
        [.dispatched i step.handler_name step.step_goal
          (enhancedArgs step ctx done) (.ok resp)]⟩ := by
  simp only [execLoop, hh, hr, hs, Bool.false_eq_true, if_false]

/-! ## Invariants of the executor loop -/

lemma save_flight_record_records (st : SharedSessionState)
    (write : List Snapshot → Except String Unit) :
    (save_flight_record st write).flight_records =
      st.flight_records ++ [snapshotOf st] := by
  simp only [save_flight_record]
  split <;> rfl

lemma add_to_history_records (st : SharedSessionState) (r c : String) :
    (add_to_history st r c).flight_records = st.flight_records := rfl

/-- The final step list extends the processed prefix; as many steps
remain after it as were remaining before the call. -/
lemma execLoop_steps_shape (handlers : List (String × HandlerFn))
    (write : List Snapshot → Except String Unit) :
    ∀ (rem : List HandlerStepModel) (i : Nat) (ctx : List (String × CtxVal))
      (done : List HandlerStepModel) (st : SharedSessionState),
    ∃ suf, (execLoop handlers write rem i ctx done st).steps = done ++ suf ∧
      suf.length = rem.length := by
  intro rem
  induction rem with
  | nil =>
    intro i ctx done st
    exact ⟨[], by simp [execLoop_nil], rfl⟩
  | cons step rest ih =>
    intro i ctx done st
    rcases hh : pyGet handlers step.handler_name with _ | h
    · rw [execLoop_skip handlers write step rest i ctx done st hh]
      obtain ⟨suf, hs1, hs2⟩ := ih (i + 1) ctx (done ++ [step]) st
      exact ⟨step :: suf, by simp [hs1], by simp [hs2]⟩
    · rcases hr : h step.step_goal (enhancedArgs step ctx done) st with e | resp
      · rw [execLoop_raise handlers write step rest i ctx done st h e hh hr]
        exact ⟨{ step with status := "running" } :: rest, rfl, by simp⟩
      · cases hs : resp.success
        · rw [execLoop_ok_fail handlers write step rest i ctx done st h resp hh hr hs]
          exact ⟨{ step with status := "failed", result := some resp } :: rest,
            rfl, by simp⟩
        · rw [execLoop_ok_success handlers write step rest i ctx done st h resp hh hr hs]
          obtain ⟨suf, hs1, hs2⟩ := ih (i + 1) (ctxSucc i ctx resp)
            (done ++ [{ step with status := "completed", result := some resp }])
            (save_flight_record
              (add_to_history st "system"
                (statusMsgOf step.step_goal "completed")) write)
          exact ⟨{ step with status := "completed", result := some resp } :: suf,
            by simp [hs1], by simp [hs2]⟩

/-- The executor never changes any step's `input_args` (it augments a
copy before dispatch). -/
lemma execLoop_input_args (handlers : List (String × HandlerFn))
    (write : List Snapshot → Except String Unit) :
    ∀ (rem : List HandlerStepModel) (i : Nat) (ctx : List (String × CtxVal))
      (done : List HandlerStepModel) (st : SharedSessionState),
    (execLoop handlers write rem i ctx done st).steps.map
        (fun s => s.input_args) =
      done.map (fun s => s.input_args) ++ rem.map (fun s => s.input_args) := by
  intro rem
  induction rem with
  | nil =>
    intro i ctx done st
    simp [execLoop_nil]
  | cons step rest ih =>
    intro i ctx done st
    rcases hh : pyGet handlers step.handler_name with _ | h
    · rw [execLoop_skip handlers write step rest i ctx done st hh]
      have := ih (i + 1) ctx (done ++ [step]) st
      simpa using this
    · rcases hr : h step.step_goal (enhancedArgs step ctx done) st with e | resp
      · rw [execLoop_raise handlers write step rest i ctx done st h e hh hr]
        simp
      · cases hs : resp.success
        · rw [execLoop_ok_fail handlers write step rest i ctx done st h resp hh hr hs]
          simp
        · rw [execLoop_ok_success handlers write step rest i ctx done st h resp hh hr hs]
          have := ih (i + 1) (ctxSucc i ctx resp)
            (done ++ [{ step with status := "completed", result := some resp }])
            (save_flight_record
              (add_to_history st "system"
                (statusMsgOf step.step_goal "completed")) write)
          simpa using this

/-- Steps are processed strictly in list order: the indices of the
emitted events are exactly `i, i+1, ...`, one event per processed
step. -/
lemma execLoop_idx (handlers : List (String × HandlerFn))
    (write : List Snapshot → Except String Unit) :
    ∀ (rem : List HandlerStepModel) (i : Nat) (ctx : List (String × CtxVal))
      (done : List HandlerStepModel) (st : SharedSessionState),
    (execLoop handlers write rem i ctx done st).events.filterMap EEvent.idx? =
      idxList i (execLoop handlers write rem i ctx done st).events.length := by
  intro rem
  induction rem with
  | nil =>
    intro i ctx done st
    simp [execLoop_nil, idxList]
  | cons step rest ih =>
    intro i ctx done st
    rcases hh : pyGet handlers step.handler_name with _ | h
    · rw [execLoop_skip handlers write step rest i ctx done st hh]
      simp only [List.filterMap_cons, EEvent.idx?, List.length_cons, idxList]
      rw [ih (i + 1) ctx (done ++ [step]) st]
    · rcases hr : h step.step_goal (enhancedArgs step ctx done) st with e | resp
      · rw [execLoop_raise handlers write step rest i ctx done st h e hh hr]
        simp [EEvent.idx?, idxList]
      · cases hs : resp.success
        · rw [execLoop_ok_fail handlers write step rest i ctx done st h resp hh hr hs]
          simp [EEvent.idx?, idxList]
        · rw [execLoop_ok_success handlers write step rest i ctx done st h resp hh hr hs]
          simp only [List.filterMap_cons, EEvent.idx?, List.length_cons, idxList]
          exact congrArg (fun l => i :: l) (ih _ _ _ _)

/-- The executor never emits a Planner-recovery invocation. -/
lemma execLoop_no_recovery (handlers : List (String × HandlerFn))
    (write : List Snapshot → Except String Unit) :
    ∀ (rem : List HandlerStepModel) (i : Nat) (ctx : List (String × CtxVal))
      (done : List HandlerStepModel) (st : SharedSessionState),
    ∀ e ∈ (execLoop handlers write rem i ctx done st).events,
      e.isRecovery = false := by
  intro rem
  induction rem with
  | nil =>
    intro i ctx done st e he
    rw [execLoop_nil] at he
    simp at he
  | cons step rest ih =>
    intro i ctx done st e he
    rcases hh : pyGet handlers step.handler_name with _ | h
    · rw [execLoop_skip handlers write step rest i ctx done st hh] at he
      rcases List.mem_cons.mp he with h1 | h1
      · subst h1; rfl
      · exact ih (i + 1) ctx (done ++ [step]) st e h1
    · rcases hr : h step.step_goal (enhancedArgs step ctx done) st with e' | resp
      · rw [execLoop_raise handlers write step rest i ctx done st h e' hh hr] at he
        rcases List.mem_cons.mp he with h1 | h1
        · subst h1; rfl
        · simp at h1
      · cases hs : resp.success
        · rw [execLoop_ok_fail handlers write step rest i ctx done st h resp hh hr hs] at he
          rcases List.mem_cons.mp he with h1 | h1
          · subst h1; rfl
          · simp at h1
        · rw [execLoop_ok_success handlers write step rest i ctx done st h resp hh hr hs] at he
          rcases List.mem_cons.mp he with h1 | h1
          · subst h1; rfl
          · exact ih (i + 1) (ctxSucc i ctx resp)
              (done ++ [{ step with status := "completed", result := some resp }])
              (save_flight_record
                (add_to_history st "system"
                  (statusMsgOf step.step_goal "completed")) write) e h1

/-- At most one event per plan step. -/
lemma execLoop_len_le (handlers : List (String × HandlerFn))
    (write : List Snapshot → Except String Unit) :
    ∀ (rem : List HandlerStepModel) (i : Nat) (ctx : List (String × CtxVal))
      (done : List HandlerStepModel) (st : SharedSessionState),
    (execLoop handlers write rem i ctx done st).events.length ≤ rem.length := by
  intro rem
  induction rem with
  | nil =>
    intro i ctx done st
    simp [execLoop_nil]
  | cons step rest ih =>
    intro i ctx done st
    rcases hh : pyGet handlers step.handler_name with _ | h
    · rw [execLoop_skip handlers write step rest i ctx done st hh]
      simpa using ih (i + 1) ctx (done ++ [step]) st
    · rcases hr : h step.step_goal (enhancedArgs step ctx done) st with e | resp
      · rw [execLoop_raise handlers write step rest i ctx done st h e hh hr]
        simp
      · cases hs : resp.success
        · rw [execLoop_ok_fail handlers write step rest i ctx done st h resp hh hr hs]
          simp
        · rw [execLoop_ok_success handlers write step rest i ctx done st h resp hh hr hs]
          simpa using ih (i + 1) (ctxSucc i ctx resp)
            (done ++ [{ step with status := "completed", result := some resp }])
            (save_flight_record
              (add_to_history st "system"
                (statusMsgOf step.step_goal "completed")) write)

/-- When steps remain, the loop emits at least one event, and the first
one concerns the first remaining step. -/
lemma execLoop_head_idx (handlers : List (String × HandlerFn))
    (write : List Snapshot → Except String Unit)
    (step : HandlerStepModel) (rest : List HandlerStepModel)
    (i : Nat) (ctx : List (String × CtxVal))
    (done : List HandlerStepModel) (st : SharedSessionState) :
    ∃ e evs',
      (execLoop handlers write (step :: rest) i ctx done st).events =
        e :: evs' ∧ e.idx? = some i := by
  rcases hh : pyGet handlers step.handler_name with _ | h
  · rw [execLoop_skip handlers write step rest i ctx done st hh]
    exact ⟨_, _, rfl, rfl⟩
  · rcases hr : h step.step_goal (enhancedArgs step ctx done) st with e | resp
    · rw [execLoop_raise handlers write step rest i ctx done st h e hh hr]
      exact ⟨_, _, rfl, rfl⟩
    · cases hs : resp.success
      · rw [execLoop_ok_fail handlers write step rest i ctx done st h resp hh hr hs]
        exact ⟨_, _, rfl, rfl⟩
      · rw [execLoop_ok_success handlers write step rest i ctx done st h resp hh hr hs]
        exact ⟨_, _, rfl, rfl⟩

/-- Exactly one audit-log record is appended per step whose handler
returned a result (`completed` or `failed` alike); skipped steps and
raising handlers append none. -/
lemma execLoop_records (handlers : List (String × HandlerFn))
    (write : List Snapshot → Except String Unit) :
    ∀ (rem : List HandlerStepModel) (i : Nat) (ctx : List (String × CtxVal))
      (done : List HandlerStepModel) (st : SharedSessionState),
    (execLoop handlers write rem i ctx done st).state.flight_records.length =
      st.flight_records.length +
        (execLoop handlers write rem i ctx done st).events.countP
          (fun e => e.isReturnedDispatch) := by
  intro rem
  induction rem with
  | nil =>
    intro i ctx done st
    simp [execLoop_nil]
  | cons step rest ih =>
    intro i ctx done st
    rcases hh : pyGet handlers step.handler_name with _ | h
    · rw [execLoop_skip handlers write step rest i ctx done st hh]
      have := ih (i + 1) ctx (done ++ [step]) st
      simp only [List.countP_cons]
      simp [EEvent.isReturnedDispatch, this]
    · rcases hr : h step.step_goal (enhancedArgs step ctx done) st with e | resp
      · rw [execLoop_raise handlers write step rest i ctx done st h e hh hr]
        simp [EEvent.isReturnedDispatch, List.countP_cons]
      · cases hs : resp.success
        · rw [execLoop_ok_fail handlers write step rest i ctx done st h resp hh hr hs]
          simp [EEvent.isReturnedDispatch, List.countP_cons,
            add_to_history_records, save_flight_record_records]
        · rw [execLoop_ok_success handlers write step rest i ctx done st h resp hh hr hs]
          have := ih (i + 1) (ctxSucc i ctx resp)
            (done ++ [{ step with status := "completed", result := some resp }])
            (save_flight_record
              (add_to_history st "system"
                (statusMsgOf step.step_goal "completed")) write)
          simp only [List.countP_cons]
          simp [EEvent.isReturnedDispatch, this,
            add_to_history_records, save_flight_record_records]
          omega

/-- A dispatch that returned `success=false` is the last event of the
run (the loop `break`s), and the final conversation history ends with
the failure entry the executor records before halting. -/
lemma execLoop_fail_last (handlers : List (String × HandlerFn))
    (write : List Snapshot → Except String Unit) :
    ∀ (rem : List HandlerStepModel) (i : Nat) (ctx : List (String × CtxVal))
      (done : List HandlerStepModel) (st : SharedSessionState)
      (pre : List EEvent) (j : Nat) (hn g : String)
      (a : List (String × ArgVal)) (resp : AgentResponse) (post : List EEvent),
    (execLoop handlers write rem i ctx done st).events =
      pre ++ .dispatched j hn g a (.ok resp) :: post →
    resp.success = false →
    post = [] ∧
    (execLoop handlers write rem i ctx done st).state.conversation_history.getLast? =
      some ("system", failMsgOf g resp.content) := by
  intro rem
  induction rem with
  | nil =>
    intro i ctx done st pre j hn g a resp post hev _
    rw [execLoop_nil] at hev
    simp at hev
  | cons step rest ih =>
    intro i ctx done st pre j hn g a resp post hev hfail
    rcases hh : pyGet handlers step.handler_name with _ | h
    · rw [execLoop_skip handlers write step rest i ctx done st hh] at hev ⊢
      cases pre with
      | nil => simp at hev
      | cons e pre' =>
        rw [List.cons_append] at hev
        have htail := (List.cons.injEq _ _ _ _).mp hev
        exact ih (i + 1) ctx (done ++ [step]) st pre' j hn g a resp post
          htail.2 hfail
    · rcases hr : h step.step_goal (enhancedArgs step ctx done) st with e' | resp'
      · rw [execLoop_raise handlers write step rest i ctx done st h e' hh hr] at hev
        cases pre with
        | nil => simp at hev
        | cons e pre' =>
          rw [List.cons_append] at hev
          have htail := (List.cons.injEq _ _ _ _).mp hev
          simp at htail
      · cases hs : resp'.success
        · rw [execLoop_ok_fail handlers write step rest i ctx done st h resp' hh hr hs] at hev ⊢
          cases pre with
          | nil =>
            rw [List.nil_append] at hev
            have hinj := (List.cons.injEq _ _ _ _).mp hev
            have hpost : post = [] := hinj.2.symm
            have harg := hinj.1
            injection harg with h1 h2 h3 h4 h5
            refine ⟨hpost, ?_⟩
            have hout : resp' = resp := by
              injection h5 with hre
            subst hout
            rw [← h3]
            exact List.getLast?_concat _
          | cons e pre' =>
            rw [List.cons_append] at hev
            have htail := (List.cons.injEq _ _ _ _).mp hev
            simp at htail
        · rw [execLoop_ok_success handlers write step rest i ctx done st h resp' hh hr hs] at hev ⊢
          cases pre with
          | nil =>
            rw [List.nil_append] at hev
            have hinj := (List.cons.injEq _ _ _ _).mp hev
            have harg := hinj.1
            injection harg with h1 h2 h3 h4 h5
            have hout : resp' = resp := by
              injection h5 with hre
            subst hout
            rw [hs] at hfail
            exact absurd hfail (by decide)
          | cons e pre' =>
            rw [List.cons_append] at hev
            have htail := (List.cons.injEq _ _ _ _).mp hev
            exact ih _ _ _ _ pre' j hn g a resp post htail.2 hfail

/-- If processing continued past position `k` of the event trace, the
step at position `k` was either skipped (missing handler) or finished
with status `completed` and a successful result. -/
lemma execLoop_continue (handlers : List (String × HandlerFn))
    (write : List Snapshot → Except String Unit) :
    ∀ (rem : List HandlerStepModel) (i : Nat) (ctx : List (String × CtxVal))
      (done : List HandlerStepModel) (st : SharedSessionState),
    done.length = i →
    ∀ (k : Nat) (e' : EEvent),
    (execLoop handlers write rem i ctx done st).events[k + 1]? = some e' →
    ∃ e, (execLoop handlers write rem i ctx done st).events[k]? = some e ∧
      ((∃ hn, e = .skipped (i + k) hn) ∨
       (∃ stp resp,
         (execLoop handlers write rem i ctx done st).steps[i + k]? = some stp ∧
         stp.status = "completed" ∧ stp.result = some resp ∧
         resp.success = true)) := by
  intro rem
  induction rem with
  | nil =>
    intro i ctx done st _ k e' hk
    rw [execLoop_nil] at hk
    simp at hk
  | cons step rest ih =>
    intro i ctx done st hlen k e' hk
    rcases hh : pyGet handlers step.handler_name with _ | h
    · rw [execLoop_skip handlers write step rest i ctx done st hh] at hk ⊢
      cases k with
      | zero =>
        exact ⟨.skipped i step.handler_name, by simp, .inl ⟨step.handler_name, by simp⟩⟩
      | succ k' =>
        rw [List.getElem?_cons_succ] at hk
        obtain ⟨e, he, hcases⟩ := ih (i + 1) ctx (done ++ [step]) st (by simp [hlen])
          k' e' hk
        refine ⟨e, by simpa using he, ?_⟩
        have harith : i + 1 + k' = i + (k' + 1) := by omega
        rcases hcases with ⟨hn, hsk⟩ | ⟨stp, resp, hstp, h1, h2, h3⟩
        · exact .inl ⟨hn, by rw [hsk, harith]⟩
        · exact .inr ⟨stp, resp, by rw [← harith]; exact hstp, h1, h2, h3⟩
    · rcases hr : h step.step_goal (enhancedArgs step ctx done) st with e₀ | resp'
      · rw [execLoop_raise handlers write step rest i ctx done st h e₀ hh hr] at hk
        simp at hk
      · cases hs : resp'.success
        · rw [execLoop_ok_fail handlers write step rest i ctx done st h resp' hh hr hs] at hk
          simp at hk
        · rw [execLoop_ok_success handlers write step rest i ctx done st h resp' hh hr hs] at hk ⊢
          cases k with
          | zero =>
            refine ⟨.dispatched i step.handler_name step.step_goal
              (enhancedArgs step ctx done) (.ok resp'), by simp, .inr ?_⟩
            refine ⟨{ step with status := "completed", result := some resp' },
              resp', ?_, rfl, rfl, hs⟩
            obtain ⟨suf, hshape, _⟩ := execLoop_steps_shape handlers write rest
              (i + 1) (ctxSucc i ctx resp')
              (done ++ [{ step with status := "completed", result := some resp' }])
              (save_flight_record
                (add_to_history st "system"
                  (statusMsgOf step.step_goal "completed")) write)
            rw [hshape, List.append_assoc]
            rw [List.getElem?_append_right (by omega)]
            simp [hlen]
          | succ k' =>
            rw [List.getElem?_cons_succ] at hk
            obtain ⟨e, he, hcases⟩ := ih (i + 1) (ctxSucc i ctx resp')
              (done ++ [{ step with status := "completed", result := some resp' }])
              (save_flight_record
                (add_to_history st "system"
                  (statusMsgOf step.step_goal "completed")) write)
              (by simp [hlen]) k' e' hk
            refine ⟨e, by simpa using he, ?_⟩
            have harith : i + 1 + k' = i + (k' + 1) := by omega
            rcases hcases with ⟨hn, hsk⟩ | ⟨stp, resp, hstp, h1, h2, h3⟩
            · exact .inl ⟨hn, by rw [hsk, harith]⟩
            · exact .inr ⟨stp, resp, by rw [← harith]; exact hstp, h1, h2, h3⟩

/-- A step whose handler is missing is skipped — its event is a
`skipped` event, never a dispatch — and execution continues to the
next step when one exists. -/
lemma execLoop_skipped_continues (handlers : List (String × HandlerFn))
    (write : List Snapshot → Except String Unit) :
    ∀ (rem : List HandlerStepModel) (i : Nat) (ctx : List (String × CtxVal))
      (done : List HandlerStepModel) (st : SharedSessionState)
      (j : Nat) (stp : HandlerStepModel),
    rem[j]? = some stp →
    pyGet handlers stp.handler_name = none →
    j < (execLoop handlers write rem i ctx done st).events.length →
    (execLoop handlers write rem i ctx done st).events[j]? =
      some (.skipped (i + j) stp.handler_name) ∧
    (j + 1 < rem.length →
      j + 1 < (execLoop handlers write rem i ctx done st).events.length) := by
  intro rem
  induction rem with
  | nil =>
    intro i ctx done st j stp hj _ _
    simp at hj
  | cons step rest ih =>
    intro i ctx done st j stp hj hmiss hjlt
    rcases hh : pyGet handlers step.handler_name with _ | h
    · rw [execLoop_skip handlers write step rest i ctx done st hh] at hjlt ⊢
      cases j with
      | zero =>
        have hstp : stp = step := by
          rw [List.getElem?_cons_zero] at hj
          exact (Option.some.injEq _ _).mp hj.symm
        subst hstp
        refine ⟨by simp, ?_⟩
        intro hlt
        have hrest : rest ≠ [] := by
          intro hcon
          subst hcon
          simp at hlt
        obtain ⟨r0, rrest, hr0⟩ := List.exists_cons_of_ne_nil hrest
        subst hr0
        obtain ⟨e, evs', hev, _⟩ := execLoop_head_idx handlers write r0 rrest
          (i + 1) ctx (done ++ [stp]) st
        simp [hev]
      | succ j' =>
        rw [List.getElem?_cons_succ] at hj
        rw [List.length_cons, Nat.succ_lt_succ_iff] at hjlt
        obtain ⟨h1, h2⟩ := ih (i + 1) ctx (done ++ [step]) st j' stp hj hmiss hjlt
        have harith : i + 1 + j' = i + (j' + 1) := by omega
        refine ⟨?_, ?_⟩
        · rw [List.getElem?_cons_succ, h1, harith]
        · intro hlt
          rw [List.length_cons] at hlt ⊢
          have := h2 (by omega)
          omega
    · rcases hr : h step.step_goal (enhancedArgs step ctx done) st with e₀ | resp'
      · rw [execLoop_raise handlers write step rest i ctx done st h e₀ hh hr] at hjlt
        simp at hjlt
        subst hjlt
        rw [List.getElem?_cons_zero] at hj
        have hstp : stp = step := (Option.some.injEq _ _).mp hj.symm
        subst hstp
        rw [hh] at hmiss
        simp at hmiss
      · cases hs : resp'.success
        · rw [execLoop_ok_fail handlers write step rest i ctx done st h resp' hh hr hs] at hjlt
          simp at hjlt
          subst hjlt
          rw [List.getElem?_cons_zero] at hj
          have hstp : stp = step := (Option.some.injEq _ _).mp hj.symm
          subst hstp
          rw [hh] at hmiss
          simp at hmiss
        · rw [execLoop_ok_success handlers write step rest i ctx done st h resp' hh hr hs] at hjlt ⊢
          cases j with
          | zero =>
            rw [List.getElem?_cons_zero] at hj
            have hstp : stp = step := (Option.some.injEq _ _).mp hj.symm
            subst hstp
            rw [hh] at hmiss
            simp at hmiss
          | succ j' =>
            rw [List.getElem?_cons_succ] at hj
            rw [List.length_cons, Nat.succ_lt_succ_iff] at hjlt
            obtain ⟨h1, h2⟩ := ih (i + 1) (ctxSucc i ctx resp')
              (done ++ [{ step with status := "completed", result := some resp' }])
              (save_flight_record
                (add_to_history st "system"
                  (statusMsgOf step.step_goal "completed")) write)
              j' stp hj hmiss hjlt
            have harith : i + 1 + j' = i + (j' + 1) := by omega
            refine ⟨?_, ?_⟩
            · rw [List.getElem?_cons_succ, h1, harith]
            · intro hlt
              rw [List.length_cons] at hlt ⊢
              have := h2 (by omega)
              omega

/-! ## Claim theorems for the executor: C1, C3, C5, C8 -/

/-- Handler registry for the C1 counterexample: one handler that
always returns a failed result. -/
def c1Handlers : List (String × HandlerFn) :=
  [("F", fun _ _ _ =>
    .ok { success := false, content := "boom", status_update := "failed" })]

/-- One-step plan for the C1 counterexample. -/
def c1Plan : TaskPlan :=
  { overall_goal := "goal",
    steps := [{ handler_name := "F", step_goal := "do the thing" }] }

/-- Fresh session state for the C1 counterexample. -/
def c1State : SharedSessionState := ⟨[], [], []⟩

/-- Audit-log writer for the C1 counterexample. -/
def c1Write : List Snapshot → Except String Unit := fun _ => .ok ()

/-- C1 counterexample: a step's handler returns `success=false`, yet
the executor never invokes the Planner with a recovery request — the
event trace contains a failed dispatch and no recovery invocation at
all; `_execute_plan` (agent.py lines 157-161) only logs the failure
and `break`s, so no second (recovery) plan is ever executed. -/
theorem C1_counterexample :
    ((execute_plan c1Handlers c1Write c1Plan c1State).events.any
      (fun e => e.isFailedDispatch)) = true ∧
    ((execute_plan c1Handlers c1Write c1Plan c1State).events.any
      (fun e => e.isRecovery)) = false := by
  exact ⟨by decide, by decide⟩

/-- C1 as amended: when a step's handler returns a result with
`success=false`, the executor records the failure in conversation
history and halts execution of the current plan immediately — the
failed dispatch is the last event, no Planner recovery request is ever
issued, and no recovery plan is executed (only the one original plan
runs, never resuming past the failed step). -/
theorem C1_amended_failure_halts_without_recovery
    (handlers : List (String × HandlerFn))
    (write : List Snapshot → Except String Unit)
    (plan : TaskPlan) (st : SharedSessionState)
    (pre : List EEvent) (j : Nat) (hn g : String)
    (a : List (String × ArgVal)) (resp : AgentResponse) (post : List EEvent)
    (hev : (execute_plan handlers write plan st).events =
      pre ++ .dispatched j hn g a (.ok resp) :: post)
    (hfail : resp.success = false) :
    post = [] ∧
    (∀ e ∈ (execute_plan handlers write plan st).events,
      e.isRecovery = false) ∧
    (execute_plan handlers write plan st).state.conversation_history.getLast? =
      some ("system", failMsgOf g resp.content) := by
  have h1 := execLoop_fail_last handlers write plan.steps 0 [] [] st
    pre j hn g a resp post hev hfail
  exact ⟨h1.1,
    fun e he => execLoop_no_recovery handlers write plan.steps 0 [] [] st e he,
    h1.2⟩

/-- Witness for the amended C1 at a concrete failing one-step plan. -/
theorem C1_amended_failure_halts_without_recovery_witness :
    (∀ e ∈ (execute_plan c1Handlers c1Write c1Plan c1State).events,
      EEvent.isRecovery e = false) ∧
    (execute_plan c1Handlers c1Write c1Plan c1State).state.conversation_history.getLast? =
      some ("system", failMsgOf "do the thing" "boom") :=
  (C1_amended_failure_halts_without_recovery c1Handlers c1Write c1Plan
    c1State [] 0 "F" "do the thing"
    [("__step_context", .stepContext []),
     ("__previous_results", .previousResults [])]
    { success := false, content := "boom", status_update := "failed" } []
    rfl rfl).2

/-- Handler registry for the C3 counterexample: only `H` is
registered. -/
def c3Handlers : List (String × HandlerFn) :=
  [("H", fun _ _ _ => .ok { success := true, content := "ok" })]

/-- Two-step plan for the C3 counterexample: the first step names a
missing handler. -/
def c3Plan : TaskPlan :=
  { overall_goal := "demo",
    steps := [{ handler_name := "Missing", step_goal := "g1" },
              { handler_name := "H", step_goal := "g2" }] }

/-- Fresh session state for the C3 counterexample. -/
def c3State : SharedSessionState := ⟨[], [], []⟩

/-- Audit-log writer for the C3 counterexample. -/
def c3Write : List Snapshot → Except String Unit := fun _ => .ok ()

/-- C3 counterexample: with step 0 naming a missing handler, step 1 is
dispatched (its handler returns a result) although step 0 never
reaches a terminal status — its final status is still `pending`
(skipped steps are `continue`d over without a status transition,
agent.py lines 122-125), refuting "step i+1 is never dispatched before
step i has reached a terminal status (completed or failed)". -/
theorem C3_counterexample :
    ((execute_plan c3Handlers c3Write c3Plan c3State).events.any
      (fun e => e.isReturnedDispatch && (e.idx? == some 1))) = true ∧
    ((execute_plan c3Handlers c3Write c3Plan c3State).steps.map
      (fun s => s.status)) = ["pending", "completed"] := by
  exact ⟨by decide, by decide⟩

/-- C3 as amended: the executor processes steps strictly in list
order, one event per step (the event indices are exactly
`0, 1, ...`); step `i+1` is processed only after step `i` has either
been skipped for a missing handler or completed successfully; and
after the first step whose handler result has `success=false`, no
further steps of the plan are dispatched (the failed dispatch is the
last event). -/
theorem C3_amended_steps_in_order_halt_on_failure
    (handlers : List (String × HandlerFn))
    (write : List Snapshot → Except String Unit)
    (plan : TaskPlan) (st : SharedSessionState) :
    (execute_plan handlers write plan st).events.filterMap EEvent.idx? =
      idxList 0 (execute_plan handlers write plan st).events.length ∧
    (execute_plan handlers write plan st).events.length ≤
      plan.steps.length ∧
    (∀ (k : Nat) (e' : EEvent),
      (execute_plan handlers write plan st).events[k + 1]? = some e' →
      ∃ e, (execute_plan handlers write plan st).events[k]? = some e ∧
        ((∃ hn, e = .skipped k hn) ∨
         (∃ stp resp,
           (execute_plan handlers write plan st).steps[k]? = some stp ∧
           stp.status = "completed" ∧ stp.result = some resp ∧
           resp.success = true))) ∧
    (∀ (pre : List EEvent) (j : Nat) (hn g : String)
       (a : List (String × ArgVal)) (resp : AgentResponse)
       (post : List EEvent),
      (execute_plan handlers write plan st).events =
        pre ++ .dispatched j hn g a (.ok resp) :: post →
      resp.success = false → post = []) := by
  refine ⟨?_, ?_, ?_, ?_⟩
  · exact execLoop_idx handlers write plan.steps 0 [] [] st
  · exact execLoop_len_le handlers write plan.steps 0 [] [] st
  · intro k e' hk
    have := execLoop_continue handlers write plan.steps 0 [] [] st rfl k e' hk
    simpa using this
  · intro pre j hn g a resp post hev hfail
    exact (execLoop_fail_last handlers write plan.steps 0 [] [] st
      pre j hn g a resp post hev hfail).1

/-- Witness for the amended C3: in a two-step run whose first step is
skipped, processing continued to position 1, so position 0 was a skip
or a completed step. -/
theorem C3_amended_steps_in_order_halt_on_failure_witness :
    ∃ e, (execute_plan c3Handlers c3Write c3Plan c3State).events[0]? =
        some e ∧
      ((∃ hn, e = .skipped 0 hn) ∨
       (∃ stp resp,
         (execute_plan c3Handlers c3Write c3Plan c3State).steps[0]? =
           some stp ∧
         stp.status = "completed" ∧ stp.result = some resp ∧
         resp.success = true)) :=
  (C3_amended_steps_in_order_halt_on_failure c3Handlers c3Write c3Plan
    c3State).2.2.1 0
    (.dispatched 1 "H" "g2"
      [("__step_context", .stepContext []),
       ("__previous_results", .previousResults [])]
      (.ok { success := true, content := "ok" }))
    rfl

/-- C5: the audit log receives exactly one appended record for every
step whose handler returned a result — `completed` and `failed` steps
alike (skipped steps and raising handlers are not run to a terminal
status and append nothing) — and `save_flight_record` always returns
normally with exactly the one appended snapshot, swallowing any
failure of the underlying file write (`try/except: pass`,
state.py lines 49-54). -/
theorem C5_audit_record_per_step
    (handlers : List (String × HandlerFn))
    (write : List Snapshot → Except String Unit)
    (plan : TaskPlan) (st : SharedSessionState) :
    (execute_plan handlers write plan st).state.flight_records.length =
      st.flight_records.length +
        (execute_plan handlers write plan st).events.countP
          (fun e => e.isReturnedDispatch) ∧
    (∀ (st' : SharedSessionState) (w' : List Snapshot → Except String Unit),
      save_flight_record st' w' =
        { st' with flight_records :=
            st'.flight_records ++ [snapshotOf st'] }) := by
  constructor
  · exact execLoop_records handlers write plan.steps 0 [] [] st
  · intro st' w'
    simp only [save_flight_record]
    split <;> rfl

/-- C8: a step naming a handler absent from the registry is skipped
(the trace records a `skipped` event for it, never a dispatch) and
execution continues to the next step of the plan — a missing handler
does not halt execution. -/
theorem C8_missing_handler_skips_and_continues
    (handlers : List (String × HandlerFn))
    (write : List Snapshot → Except String Unit)
    (plan : TaskPlan) (st : SharedSessionState)
    (i : Nat) (stp : HandlerStepModel)
    (hstep : plan.steps[i]? = some stp)
    (hmiss : pyGet handlers stp.handler_name = none)
    (hreach : i < (execute_plan handlers write plan st).events.length) :
    (execute_plan handlers write plan st).events[i]? =
      some (.skipped i stp.handler_name) ∧
    (i + 1 < plan.steps.length →
      i + 1 < (execute_plan handlers write plan st).events.length) := by
  have := execLoop_skipped_continues handlers write plan.steps 0 [] [] st
    i stp hstep hmiss hreach
  simpa using this

/-- Handler registry for the C8 witness. -/
def c8Handlers : List (String × HandlerFn) :=
  [("H", fun _ _ _ => .ok { success := true, content := "ok" })]

/-- Two-step plan for the C8 witness (first handler missing). -/
def c8Plan : TaskPlan :=
  { overall_goal := "demo",
    steps := [{ handler_name := "Missing", step_goal := "g1" },
              { handler_name := "H", step_goal := "g2" }] }

/-- Fresh session state for the C8 witness. -/
def c8State : SharedSessionState := ⟨[], [], []⟩

/-- Audit-log writer for the C8 witness. -/
def c8Write : List Snapshot → Except String Unit := fun _ => .ok ()

/-- Witness for C8 at a concrete two-step plan whose first step has no
registered handler. -/
theorem C8_missing_handler_skips_and_continues_witness :
    (execute_plan c8Handlers c8Write c8Plan c8State).events[0]? =
      some (.skipped 0 "Missing") ∧
    (0 + 1 < c8Plan.steps.length →
      0 + 1 < (execute_plan c8Handlers c8Write c8Plan c8State).events.length) :=
  C8_missing_handler_skips_and_continues c8Handlers c8Write c8Plan c8State
    0 { handler_name := "Missing", step_goal := "g1" } rfl rfl (by decide)

/-! ## The dispatch arguments (claim C6) -/

lemma ctxOfAux_append (s : HandlerStepModel) :
    ∀ (l : List HandlerStepModel) (i : Nat) (ctx : List (String × CtxVal)),
    ctxOfAux i (l ++ [s]) ctx =
      ctxStepUpdate (i + l.length) (ctxOfAux i l ctx) s := by
  intro l
  induction l with
  | nil =>
    intro i ctx
    simp [ctxOfAux]
  | cons a t ih =>
    intro i ctx
    simp only [List.cons_append, ctxOfAux, List.append_eq]
    rw [ih (i + 1)]
    have harith : i + 1 + t.length = i + (a :: t).length := by
      simp
      omega
    rw [harith]

/-- When every recorded result of a processed prefix is successful and
its step `completed`, the code's `__previous_results` list (steps with
a recorded result) coincides with the spec's list (the successful
steps). -/
lemma prevResults_eq_completed :
    ∀ (l : List HandlerStepModel),
    (∀ s ∈ l, ∀ rr, s.result = some rr →
      rr.success = true ∧ s.status = "completed") →
    prevResultsOf l = completedPrevResults l := by
  intro l
  induction l with
  | nil =>
    intro _
    rfl
  | cons s t ih =>
    intro hinv
    have htail := ih (fun x hx => hinv x (List.mem_cons_of_mem s hx))
    unfold prevResultsOf completedPrevResults at htail ⊢
    rw [List.filterMap_cons, List.filterMap_cons]
    rcases hres : s.result with _ | rr
    · rcases hcomp : s.status == "completed"
      · simp [hres, hcomp, htail]
      · simp [hres, hcomp, htail]
    · have hst := (hinv s (List.mem_cons_self s t) rr hres).2
      have hcomp : (s.status == "completed") = true := by
        rw [hst]
        rfl
      simp [hres, hcomp, htail]

/-- Master lemma for C6: every dispatch receives exactly the step's
own `input_args` augmented with the `step_context` of the processed
prefix and the `__previous_results` of that prefix, whose recorded
results all stem from successful, `completed` steps. -/
lemma execLoop_dispatch_args (handlers : List (String × HandlerFn))
    (write : List Snapshot → Except String Unit) :
    ∀ (rem : List HandlerStepModel) (i : Nat) (ctx : List (String × CtxVal))
      (done : List HandlerStepModel) (st : SharedSessionState),
    done.length = i →
    ctx = ctxOf done →
    (∀ s ∈ done, ∀ rr, s.result = some rr →
      rr.success = true ∧ s.status = "completed") →
    (∀ s ∈ rem, s.result = none) →
    ∀ (pre : List EEvent) (j : Nat) (hn g : String)
      (a : List (String × ArgVal)) (out : Except String AgentResponse)
      (post : List EEvent),
    (execLoop handlers write rem i ctx done st).events =
      pre ++ .dispatched j hn g a out :: post →
    ∃ stp,
      rem[j - i]? = some stp ∧ i ≤ j ∧
      hn = stp.handler_name ∧ g = stp.step_goal ∧
      a = enhancedArgs stp
            (ctxOf ((execLoop handlers write rem i ctx done st).steps.take j))
            ((execLoop handlers write rem i ctx done st).steps.take j) ∧
      (∀ s ∈ (execLoop handlers write rem i ctx done st).steps.take j,
        ∀ rr, s.result = some rr →
          rr.success = true ∧ s.status = "completed") := by
  intro rem
  induction rem with
  | nil =>
    intro i ctx done st _ _ _ _ pre j hn g a out post hev
    rw [execLoop_nil] at hev
    simp at hev
  | cons step rest ih =>
    intro i ctx done st hlen hctx hinv hfresh pre j hn g a out post hev
    rcases hh : pyGet handlers step.handler_name with _ | h
    · rw [execLoop_skip handlers write step rest i ctx done st hh] at hev ⊢
      cases pre with
      | nil => simp at hev
      | cons e pre' =>
        rw [List.cons_append] at hev
        have htail := (List.cons.injEq _ _ _ _).mp hev
        have hres : step.result = none := hfresh step (by simp)
        have hctx' : ctx = ctxOf (done ++ [step]) := by
          rw [ctxOf, ctxOfAux_append]
          simp only [ctxStepUpdate, hres]
          exact hctx
        have hinv' : ∀ s ∈ done ++ [step], ∀ rr, s.result = some rr →
            rr.success = true ∧ s.status = "completed" := by
          intro s hs rr hrr
          rcases List.mem_append.mp hs with hs | hs
          · exact hinv s hs rr hrr
          · have : s = step := by simpa using hs
            subst this
            rw [hres] at hrr
            simp at hrr
        obtain ⟨stp, h1, h2, h3, h4, h5, h6⟩ := ih (i + 1) ctx (done ++ [step])
          st (by simp [hlen]) hctx' hinv'
          (fun s hs => hfresh s (List.mem_cons_of_mem step hs))
          pre' j hn g a out post htail.2
        refine ⟨stp, ?_, by omega, h3, h4, h5, h6⟩
        have harith : j - i = (j - (i + 1)) + 1 := by omega
        rw [harith, List.getElem?_cons_succ]
        exact h1
    · rcases hr : h step.step_goal (enhancedArgs step ctx done) st with e₀ | resp'
      · rw [execLoop_raise handlers write step rest i ctx done st h e₀ hh hr] at hev ⊢
        cases pre with
        | nil =>
          rw [List.nil_append] at hev
          have hinj := (List.cons.injEq _ _ _ _).mp hev
          injection hinj.1 with h1 h2 h3 h4 h5
          subst h1
          refine ⟨step, by simp, Nat.le_refl i, h2.symm, h3.symm, ?_, ?_⟩
          · rw [List.take_left' hlen, ← hctx, ← h4]
          · rw [List.take_left' hlen]
            exact hinv
        | cons e pre' =>
          rw [List.cons_append] at hev
          have htail := (List.cons.injEq _ _ _ _).mp hev
          simp at htail
      · cases hs : resp'.success
        · rw [execLoop_ok_fail handlers write step rest i ctx done st h resp' hh hr hs] at hev ⊢
          cases pre with
          | nil =>
            rw [List.nil_append] at hev
            have hinj := (List.cons.injEq _ _ _ _).mp hev
            injection hinj.1 with h1 h2 h3 h4 h5
            subst h1
            refine ⟨step, by simp, Nat.le_refl i, h2.symm, h3.symm, ?_, ?_⟩
            · rw [List.take_left' hlen, ← hctx, ← h4]
            · rw [List.take_left' hlen]
              exact hinv
          | cons e pre' =>
            rw [List.cons_append] at hev
            have htail := (List.cons.injEq _ _ _ _).mp hev
            simp at htail
        · rw [execLoop_ok_success handlers write step rest i ctx done st h resp' hh hr hs] at hev ⊢
          have hctx' : ctxSucc i ctx resp' =
              ctxOf (done ++
                [{ step with status := "completed", result := some resp' }]) := by
            rw [ctxOf, ctxOfAux_append]
            simp only [ctxStepUpdate, hs, if_true]
            rw [← ctxOf, ← hctx]
            simp [hlen]
          have hinv' : ∀ s ∈ done ++
              [{ step with status := "completed", result := some resp' }],
              ∀ rr, s.result = some rr →
                rr.success = true ∧ s.status = "completed" := by
            intro s hsm rr hrr
            rcases List.mem_append.mp hsm with hsm | hsm
            · exact hinv s hsm rr hrr
            · have : s = { step with status := "completed", result := some resp' } := by
                simpa using hsm
              subst this
              simp only at hrr
              have : rr = resp' := by
                injection hrr with hor
                exact hor.symm
              subst this
              exact ⟨hs, rfl⟩
          cases pre with
          | nil =>
            rw [List.nil_append] at hev
            have hinj := (List.cons.injEq _ _ _ _).mp hev
            injection hinj.1 with h1 h2 h3 h4 h5
            subst h1
            obtain ⟨suf, hshape, _⟩ := execLoop_steps_shape handlers write rest
              (i + 1) (ctxSucc i ctx resp')
              (done ++ [{ step with status := "completed", result := some resp' }])
              (save_flight_record
                (add_to_history st "system"
                  (statusMsgOf step.step_goal "completed")) write)
            have htake : (execLoop handlers write rest (i + 1)
                (ctxSucc i ctx resp')
                (done ++ [{ step with status := "completed", result := some resp' }])
                (save_flight_record
                  (add_to_history st "system"
                    (statusMsgOf step.step_goal "completed")) write)).steps.take i =
                done := by
              rw [hshape, List.append_assoc]
              exact List.take_left' hlen
            refine ⟨step, by simp, Nat.le_refl i, h2.symm, h3.symm, ?_, ?_⟩
            · rw [htake, ← hctx, ← h4]
            · rw [htake]
              exact hinv
          | cons e pre' =>
            rw [List.cons_append] at hev
            have htail := (List.cons.injEq _ _ _ _).mp hev
            obtain ⟨stp, h1, h2, h3, h4, h5, h6⟩ := ih (i + 1)
              (ctxSucc i ctx resp')
              (done ++ [{ step with status := "completed", result := some resp' }])
              (save_flight_record
                (add_to_history st "system"
                  (statusMsgOf step.step_goal "completed")) write)
              (by simp [hlen]) hctx' hinv'
              (fun s hsm => hfresh s (List.mem_cons_of_mem step hsm))
              pre' j hn g a out post htail.2
            refine ⟨stp, ?_, by omega, h3, h4, h5, h6⟩
            have harith : j - i = (j - (i + 1)) + 1 := by omega
            rw [harith, List.getElem?_cons_succ]
            exact h1

/-- C6: every dispatched step receives an augmented copy of its own
`input_args` — the original mapping extended with (a) `__step_context`,
the mapping from prior step identifiers (`step_k_result` /
`step_k_artifacts`) to the recorded outputs and artifacts of the
successful prior steps, and (b) `__previous_results`, the ordered
`{step_goal, result}` list of exactly the prior successful
(`completed`) steps — while every step's own `input_args` mapping is
left unchanged by the run.  The hypothesis that the plan's steps carry
no pre-set `result` matches every plan the Planner produces (steps are
created `pending` with `result=None`). -/
theorem C6_dispatch_args_augmented
    (handlers : List (String × HandlerFn))
    (write : List Snapshot → Except String Unit)
    (plan : TaskPlan) (st : SharedSessionState)
    (hfresh : ∀ s ∈ plan.steps, s.result = none)
    (pre : List EEvent) (j : Nat) (hn g : String)
    (a : List (String × ArgVal)) (out : Except String AgentResponse)
    (post : List EEvent)
    (hev : (execute_plan handlers write plan st).events =
      pre ++ .dispatched j hn g a out :: post) :
    ∃ stp,
      plan.steps[j]? = some stp ∧
      a = enhancedArgs stp
            (ctxOf ((execute_plan handlers write plan st).steps.take j))
            ((execute_plan handlers write plan st).steps.take j) ∧
      prevResultsOf ((execute_plan handlers write plan st).steps.take j) =
        completedPrevResults
          ((execute_plan handlers write plan st).steps.take j) ∧
      (∀ s ∈ (execute_plan handlers write plan st).steps.take j,
        ∀ rr, s.result = some rr →
          rr.success = true ∧ s.status = "completed") ∧
      (execute_plan handlers write plan st).steps.map
          (fun s => s.input_args) =
        plan.steps.map (fun s => s.input_args) := by
  obtain ⟨stp, h1, _, _, _, h5, h6⟩ := execLoop_dispatch_args handlers write
    plan.steps 0 [] [] st rfl rfl (by simp) hfresh pre j hn g a out post hev
  rw [Nat.sub_zero] at h1
  refine ⟨stp, h1, h5, prevResults_eq_completed _ h6, h6, ?_⟩
  simpa using execLoop_input_args handlers write plan.steps 0 [] [] st

/-- Handler registry for the C6 witness. -/
def c6Handlers : List (String × HandlerFn) :=
  [("H", fun _ _ _ => .ok { success := true, content := "out1" })]

/-- Two-step plan for the C6 witness. -/
def c6Plan : TaskPlan :=
  { overall_goal := "demo",
    steps := [{ handler_name := "H", step_goal := "g1" },
              { handler_name := "H", step_goal := "g2" }] }

/-- Fresh session state for the C6 witness. -/
def c6State : SharedSessionState := ⟨[], [], []⟩

/-- Audit-log writer for the C6 witness. -/
def c6Write : List Snapshot → Except String Unit := fun _ => .ok ()

/-- The response the C6 witness handler returns. -/
def c6Resp : AgentResponse := { success := true, content := "out1" }

/-- Witness for C6: in a concrete two-step run, the second dispatch
carries the first step's content and artifacts in `__step_context` and
its `{step_goal, result}` pair in `__previous_results`. -/
theorem C6_dispatch_args_augmented_witness :
    ∃ stp,
      c6Plan.steps[1]? = some stp ∧
      [("__step_context",
          ArgVal.stepContext
            [("step_1_result", .content "out1"),
             ("step_1_artifacts", .artifacts [])]),
       ("__previous_results", ArgVal.previousResults [("g1", c6Resp)])] =
        enhancedArgs stp
          (ctxOf ((execute_plan c6Handlers c6Write c6Plan c6State).steps.take 1))
          ((execute_plan c6Handlers c6Write c6Plan c6State).steps.take 1) ∧
      prevResultsOf
          ((execute_plan c6Handlers c6Write c6Plan c6State).steps.take 1) =
        completedPrevResults
          ((execute_plan c6Handlers c6Write c6Plan c6State).steps.take 1) ∧
      (∀ s ∈ (execute_plan c6Handlers c6Write c6Plan c6State).steps.take 1,
        ∀ rr, s.result = some rr →
          rr.success = true ∧ s.status = "completed") ∧
      (execute_plan c6Handlers c6Write c6Plan c6State).steps.map
          (fun s => s.input_args) =
        c6Plan.steps.map (fun s => s.input_args) :=
  C6_dispatch_args_augmented c6Handlers c6Write c6Plan c6State
    (by intro s hs
        fin_cases hs <;> rfl)
    [.dispatched 0 "H" "g1"
      [("__step_context", .stepContext []),
       ("__previous_results", .previousResults [])] (.ok c6Resp)]
    1 "H" "g2"
    [("__step_context",
        .stepContext
          [("step_1_result", .content "out1"),
           ("step_1_artifacts", .artifacts [])]),
     ("__previous_results", .previousResults [("g1", c6Resp)])]
    (.ok c6Resp) [] rfl

/-! ## `CognitiveCore.orchestrate` (claim C7)

`orchestrate` (cognitive_core.py lines 274-428) validates the LLM's
structured output and builds a `TaskPlan`, returning `None` on every
malformed input; its whole body sits inside `try/except Exception:
return None`.  The two LLM calls (`call_with_function` and the
`call_with_structured_output` fallback) are abstracted as two
`Except`-valued parameters (`.error` = a raised exception); prompt
construction is pure presentation and not modelled.  Python's
`float(...)` on strings is abstracted as a `parseFloat` parameter; on
numbers and booleans it is total, on `None`/lists/dicts it raises. -/

/-- A parsed Python dict, as the LLM client returns it. -/
abbrev PyDict := List (String × JVal)

/-- Python truthiness of a JSON-ish value. -/
def truthy : JVal → Bool
  | .str s => !s.isEmpty
  | .num q => decide (q ≠ 0)
  | .bool b => b
  | .null => false
  | .arr xs => !xs.isEmpty
  | .obj fs => !fs.isEmpty

/-- Python `float(v)`: numbers pass through, booleans become 0/1,
strings go through the abstracted parser, everything else raises. -/
def pyFloat (parseFloat : String → Except Unit Rat) : JVal → Except Unit Rat
  | .num q => .ok q
  | .bool b => .ok (if b then 1 else 0)
  | .str s => parseFloat s
  | _ => .error ()

/-- The valid `status` values of `HandlerStepModel`. -/
def validStatus (s : String) : Bool :=
  s == "pending" || s == "running" || s == "completed" || s == "failed"

/-- One iteration of the step-conversion loop (cognitive_core.py lines
378-404): explicit `handler_name`/`step_goal` presence checks, the
`input_args` dict coercion, then `HandlerStepModel(**step_data)` with
the validators of models.py (`none` = the `continue` on any error).
The optional `id` must be a string and the optional `result` must be
absent or `None` — an embedded JSON object that happens to parse as a
valid `AgentResponse` is conservatively rejected here; no claim
depends on that corner, and the function-calling schema never emits
such a field. -/
def mkStep (stepJ : JVal) : Option HandlerStepModel :=
  match stepJ with
  | .obj fields0 =>
    if (pyGet fields0 "handler_name").isNone then none
    else if (pyGet fields0 "step_goal").isNone then none
    else
      let fields : PyDict :=
        match pyGet fields0 "input_args" with
        | none => pySet fields0 "input_args" (.obj [])
        | some (.obj _) => fields0
        | some _ => pySet fields0 "input_args" (.obj [])
      match pyGet fields "handler_name", pyGet fields "step_goal",
            pyGet fields "input_args" with
      | some (.str hn), some (.str sg), some (.obj ia) =>
        if (pyStrip hn).isEmpty || (pyStrip sg).isEmpty then none
        else
          let statusOk : Option String :=
            match pyGet fields "status" with
            | none => some "pending"
            | some (.str stv) => if validStatus stv then some stv else none
            | some _ => none
          let idOk : Bool :=
            match pyGet fields "id" with
            | none => true
            | some (.str _) => true
            | some _ => false
          let resultOk : Bool :=
            match pyGet fields "result" with
            | none => true
            | some .null => true
            | some _ => false
          match statusOk with
          | none => none
          | some stv =>
            if idOk && resultOk then
              some { handler_name := pyStrip hn, step_goal := pyStrip sg,
                     input_args := ia.map (fun p => (p.1, ArgVal.raw p.2)),
                     status := stv, result := none }
            else none
      | _, _, _ => none
  | _ => none

/-- The final `TaskPlan(...)` construction (cognitive_core.py lines
411-424) with the validators of models.py: `overall_goal` must be a
non-blank string (defaulting to `''` when absent, which then fails),
`confidence` is `float(...)`d and must lie in `[0,1]`, `reasoning`
must be a string; any validation error is caught and yields `None`. -/
def mkTaskPlan (parseFloat : String → Except Unit Rat) (plan_data : PyDict)
    (steps : List HandlerStepModel) : Option TaskPlan :=
  match (pyGet plan_data "overall_goal").getD (.str ""),
        pyFloat parseFloat ((pyGet plan_data "confidence").getD (.num 1)),
        (pyGet plan_data "reasoning").getD (.str "") with
  | .str og, .ok conf, .str rs =>
    if (pyStrip og).isEmpty then none
    else if conf < 0 ∨ 1 < conf then none
    else some { overall_goal := pyStrip og, steps := steps,
                confidence := conf, reasoning := rs }
  | _, _, _ => none

/-- The `try call_with_function / except: call_with_structured_output`
cascade (cognitive_core.py lines 353-357). -/
def plan_dataE (llm_function_call llm_structured_call : Except String PyDict) :
    Except String PyDict :=
  match llm_function_call with
  | .ok d => .ok d
  | .error _ => llm_structured_call

/-- The validation pipeline of `orchestrate` on a successfully
obtained dict (cognitive_core.py lines 359-424): `success` flag check,
`steps` truthiness and list checks, per-step conversion with invalid
steps skipped, then `TaskPlan` construction. -/
def orchestrate_fromDict (parseFloat : String → Except Unit Rat)
    (plan_data0 : PyDict) : Option TaskPlan :=
  if truthy ((pyGet plan_data0 "success").getD (.bool false)) = false then none
  else if truthy
      ((pyGet (pyDel plan_data0 "success") "steps").getD .null) = false then
    none
  else
    match pyGet (pyDel plan_data0 "success") "steps" with
    | some (.arr stepsJ) =>
      if (stepsJ.filterMap mkStep).isEmpty then none
      else mkTaskPlan parseFloat (pyDel plan_data0 "success")
        (stepsJ.filterMap mkStep)
    | _ => none

/-- `CognitiveCore.orchestrate`: empty-input and missing-state guards,
the LLM call cascade with the outer `except Exception: return None`,
then the validation pipeline.  Total by construction — every Python
exception path is a `none`. -/
def orchestrate (parseFloat : String → Except Unit Rat)
    (llm_function_call llm_structured_call : Except String PyDict)
    (user_input : String) (state? : Option SharedSessionState) :
    Option TaskPlan :=
  if user_input.isEmpty ∨ (pyStrip user_input).isEmpty then none
  else
    match state? with
    | none => none
    | some _ =>
      match plan_dataE llm_function_call llm_structured_call with
      | .error _ => none
      | .ok d => orchestrate_fromDict parseFloat d

/-- What one iteration of the `start_session` loop (agent.py lines
171-186) does with the user input and the orchestration result. -/
inductive SessionAction where
  | exitSession
  | noPlanMsg (msg : String)
  | runPlan (plan : TaskPlan)

/-- One iteration of the session loop: exit keywords first, then the
"I couldn't devise a plan" branch for a missing or empty plan, else
plan execution. -/
def session_iteration (user_input : String) (plan? : Option TaskPlan) :
    SessionAction :=
  if pyStrip (pyLower user_input) == "exit" ∨
     pyStrip (pyLower user_input) == "quit" then .exitSession
  else
    match plan? with
    | none => .noPlanMsg "I couldn't devise a plan. Try rephrasing."
    | some p =>
      if p.steps.isEmpty then
        .noPlanMsg "I couldn't devise a plan. Try rephrasing."
      else .runPlan p

/-! ## Lemmas about `orchestrate` -/

lemma mkTaskPlan_valid (parseFloat : String → Except Unit Rat)
    (d : PyDict) (steps : List HandlerStepModel) (p : TaskPlan)
    (h : mkTaskPlan parseFloat d steps = some p) :
    p.steps = steps ∧ p.overall_goal ≠ "" ∧
    0 ≤ p.confidence ∧ p.confidence ≤ 1 := by
  unfold mkTaskPlan at h
  split at h
  · split at h
    · simp at h
    · rename_i hog
      split at h
      · simp at h
      · rename_i hconf
        injection h with hp
        subst hp
        refine ⟨rfl, ?_, ?_, ?_⟩
        · intro hcon
          exact hog ((String.isEmpty_iff _).mpr hcon)
        · by_contra hlt
          exact hconf (Or.inl (lt_of_not_le hlt))
        · by_contra hlt
          exact hconf (Or.inr (lt_of_not_le hlt))
  · simp at h

lemma mkTaskPlan_none_of_missing_goal (parseFloat : String → Except Unit Rat)
    (d : PyDict) (steps : List HandlerStepModel)
    (hog : pyGet d "overall_goal" = none) :
    mkTaskPlan parseFloat d steps = none := by
  unfold mkTaskPlan
  rw [hog]
  rcases hce : pyFloat parseFloat ((pyGet d "confidence").getD (.num 1))
      with u | cv <;>
    rcases hre : (pyGet d "reasoning").getD (.str "")
      with s | q | b | _ | xs | fs <;>
  rfl

lemma fromDict_valid (parseFloat : String → Except Unit Rat)
    (d : PyDict) (p : TaskPlan)
    (h : orchestrate_fromDict parseFloat d = some p) :
    p.steps ≠ [] ∧ p.overall_goal ≠ "" ∧
    0 ≤ p.confidence ∧ p.confidence ≤ 1 := by
  unfold orchestrate_fromDict at h
  split at h
  · simp at h
  · split at h
    · simp at h
    · split at h
      · rename_i stepsJ _
        split at h
        · simp at h
        · rename_i hne
          obtain ⟨h1, h2, h3, h4⟩ := mkTaskPlan_valid parseFloat _ _ p h
          refine ⟨?_, h2, h3, h4⟩
          rw [h1]
          intro hcon
          exact hne (by simp [hcon])
      · simp at h

lemma fromDict_none_of_success_falsy (parseFloat : String → Except Unit Rat)
    (d : PyDict)
    (h : truthy ((pyGet d "success").getD (.bool false)) = false) :
    orchestrate_fromDict parseFloat d = none := by
  unfold orchestrate_fromDict
  rw [if_pos h]

lemma fromDict_none_of_steps_falsy (parseFloat : String → Except Unit Rat)
    (d : PyDict)
    (h : truthy ((pyGet (pyDel d "success") "steps").getD .null) = false) :
    orchestrate_fromDict parseFloat d = none := by
  by_cases h1 : truthy ((pyGet d "success").getD (.bool false)) = false
  · exact fromDict_none_of_success_falsy parseFloat d h1
  · unfold orchestrate_fromDict
    rw [if_neg h1, if_pos h]

lemma fromDict_none_of_steps_not_list (parseFloat : String → Except Unit Rat)
    (d : PyDict) (v : JVal)
    (hv : pyGet (pyDel d "success") "steps" = some v)
    (hna : ∀ xs, v ≠ .arr xs) :
    orchestrate_fromDict parseFloat d = none := by
  by_cases h1 : truthy ((pyGet d "success").getD (.bool false)) = false
  · exact fromDict_none_of_success_falsy parseFloat d h1
  · by_cases h2 : truthy ((pyGet (pyDel d "success") "steps").getD .null) = false
    · exact fromDict_none_of_steps_falsy parseFloat d h2
    · unfold orchestrate_fromDict
      rw [if_neg h1, if_neg h2, hv]
      rcases v with s | q | b | _ | xs | fs
      · rfl
      · rfl
      · rfl
      · rfl
      · exact absurd rfl (hna xs)
      · rfl

lemma fromDict_none_of_all_steps_invalid (parseFloat : String → Except Unit Rat)
    (d : PyDict) (xs : List JVal)
    (hv : pyGet (pyDel d "success") "steps" = some (.arr xs))
    (hall : ∀ s ∈ xs, mkStep s = none) :
    orchestrate_fromDict parseFloat d = none := by
  by_cases h1 : truthy ((pyGet d "success").getD (.bool false)) = false
  · exact fromDict_none_of_success_falsy parseFloat d h1
  · by_cases h2 : truthy ((pyGet (pyDel d "success") "steps").getD .null) = false
    · exact fromDict_none_of_steps_falsy parseFloat d h2
    · unfold orchestrate_fromDict
      rw [if_neg h1, if_neg h2, hv]
      have hnil : xs.filterMap mkStep = [] :=
        List.filterMap_eq_nil_iff.mpr hall
      simp [hnil]

lemma fromDict_none_of_missing_goal (parseFloat : String → Except Unit Rat)
    (d : PyDict)
    (hog : pyGet (pyDel d "success") "overall_goal" = none) :
    orchestrate_fromDict parseFloat d = none := by
  by_cases h1 : truthy ((pyGet d "success").getD (.bool false)) = false
  · exact fromDict_none_of_success_falsy parseFloat d h1
  · by_cases h2 : truthy ((pyGet (pyDel d "success") "steps").getD .null) = false
    · exact fromDict_none_of_steps_falsy parseFloat d h2
    · unfold orchestrate_fromDict
      rw [if_neg h1, if_neg h2]
      split
      · rename_i stepsJ _
        split
        · rfl
        · exact mkTaskPlan_none_of_missing_goal parseFloat _ _ hog
      · rfl

lemma orchestrate_eq_fromDict (parseFloat : String → Except Unit Rat)
    (A B : Except String PyDict) (inp : String) (st0 : SharedSessionState)
    (d : PyDict) (hin : ¬(inp.isEmpty ∨ (pyStrip inp).isEmpty))
    (hd : plan_dataE A B = .ok d) :
    orchestrate parseFloat A B inp (some st0) =
      orchestrate_fromDict parseFloat d := by
  unfold orchestrate
  rw [if_neg hin, hd]

/-- C7: every malformed Planner/LLM output makes `orchestrate` return
`none` (no plan) rather than raise — both LLM calls raising, a falsy or
absent `success` flag, absent/falsy/non-list `steps`, a step list with
no valid step, or a missing `overall_goal` — any plan it does return
satisfies the structural invariants (non-empty steps, non-blank goal,
confidence in `[0,1]`), and the session loop surfaces a `none` result
as the could-not-devise-a-plan message and continues rather than
crashing. -/
theorem C7_malformed_output_yields_no_plan
    (parseFloat : String → Except Unit Rat)
    (A B : Except String PyDict) (inp : String)
    (st? : Option SharedSessionState) :
    (∀ eA eB, A = .error eA → B = .error eB →
      orchestrate parseFloat A B inp st? = none) ∧
    (∀ d, plan_dataE A B = .ok d →
      truthy ((pyGet d "success").getD (.bool false)) = false →
      orchestrate parseFloat A B inp st? = none) ∧
    (∀ d, plan_dataE A B = .ok d →
      truthy ((pyGet (pyDel d "success") "steps").getD .null) = false →
      orchestrate parseFloat A B inp st? = none) ∧
    (∀ d v, plan_dataE A B = .ok d →
      pyGet (pyDel d "success") "steps" = some v → (∀ xs, v ≠ .arr xs) →
      orchestrate parseFloat A B inp st? = none) ∧
    (∀ d xs, plan_dataE A B = .ok d →
      pyGet (pyDel d "success") "steps" = some (.arr xs) →
      (∀ s ∈ xs, mkStep s = none) →
      orchestrate parseFloat A B inp st? = none) ∧
    (∀ d, plan_dataE A B = .ok d →
      pyGet (pyDel d "success") "overall_goal" = none →
      orchestrate parseFloat A B inp st? = none) ∧
    (∀ p, orchestrate parseFloat A B inp st? = some p →
      p.steps ≠ [] ∧ p.overall_goal ≠ "" ∧
      0 ≤ p.confidence ∧ p.confidence ≤ 1) ∧
    (orchestrate parseFloat A B inp st? = none →
      pyStrip (pyLower inp) ≠ "exit" → pyStrip (pyLower inp) ≠ "quit" →
      session_iteration inp (orchestrate parseFloat A B inp st?) =
        .noPlanMsg "I couldn't devise a plan. Try rephrasing.") := by
  refine ⟨?_, ?_, ?_, ?_, ?_, ?_, ?_, ?_⟩
  · intro eA eB hA hB
    have hd : plan_dataE A B = .error eB := by
      rw [hA, hB]
      rfl
    by_cases hin : inp.isEmpty ∨ (pyStrip inp).isEmpty
    · unfold orchestrate
      rw [if_pos hin]
    · cases st? with
      | none =>
        unfold orchestrate
        rw [if_neg hin]
      | some s0 =>
        unfold orchestrate
        rw [if_neg hin, hd]
  · intro d hd hcond
    by_cases hin : inp.isEmpty ∨ (pyStrip inp).isEmpty
    · unfold orchestrate
      rw [if_pos hin]
    · cases st? with
      | none =>
        unfold orchestrate
        rw [if_neg hin]
      | some s0 =>
        rw [orchestrate_eq_fromDict parseFloat A B inp s0 d hin hd]
        exact fromDict_none_of_success_falsy parseFloat d hcond
  · intro d hd hcond
    by_cases hin : inp.isEmpty ∨ (pyStrip inp).isEmpty
    · unfold orchestrate
      rw [if_pos hin]
    · cases st? with
      | none =>
        unfold orchestrate
        rw [if_neg hin]
      | some s0 =>
        rw [orchestrate_eq_fromDict parseFloat A B inp s0 d hin hd]
        exact fromDict_none_of_steps_falsy parseFloat d hcond
  · intro d v hd hv hna
    by_cases hin : inp.isEmpty ∨ (pyStrip inp).isEmpty
    · unfold orchestrate
      rw [if_pos hin]
    · cases st? with
      | none =>
        unfold orchestrate
        rw [if_neg hin]
      | some s0 =>
        rw [orchestrate_eq_fromDict parseFloat A B inp s0 d hin hd]
        exact fromDict_none_of_steps_not_list parseFloat d v hv hna
  · intro d xs hd hv hall
    by_cases hin : inp.isEmpty ∨ (pyStrip inp).isEmpty
    · unfold orchestrate
      rw [if_pos hin]
    · cases st? with
      | none =>
        unfold orchestrate
        rw [if_neg hin]
      | some s0 =>
        rw [orchestrate_eq_fromDict parseFloat A B inp s0 d hin hd]
        exact fromDict_none_of_all_steps_invalid parseFloat d xs hv hall
  · intro d hd hog
    by_cases hin : inp.isEmpty ∨ (pyStrip inp).isEmpty
    · unfold orchestrate
      rw [if_pos hin]
    · cases st? with
      | none =>
        unfold orchestrate
        rw [if_neg hin]
      | some s0 =>
        rw [orchestrate_eq_fromDict parseFloat A B inp s0 d hin hd]
        exact fromDict_none_of_missing_goal parseFloat d hog
  · intro p hp
    unfold orchestrate at hp
    by_cases hin : inp.isEmpty ∨ (pyStrip inp).isEmpty
    · rw [if_pos hin] at hp
      simp at hp
    · rw [if_neg hin] at hp
      cases st? with
      | none => simp at hp
      | some s0 =>
        rcases hd : plan_dataE A B with e | d
        · rw [hd] at hp
          simp at hp
        · rw [hd] at hp
          exact fromDict_valid parseFloat d p hp
  · intro hnone hne hnq
    rw [hnone]
    unfold session_iteration
    have hcond : ¬((pyStrip (pyLower inp) == "exit") = true ∨
        (pyStrip (pyLower inp) == "quit") = true) := by
      rintro (hc | hc)
      · exact hne (by simpa using hc)
      · exact hnq (by simpa using hc)
    rw [if_neg hcond]

/-- Fixed float parser for the C7 witness (never called). -/
def c7Parse : String → Except Unit Rat := fun _ => .error ()

/-- Fresh session state for the C7 witness. -/
def c7State : SharedSessionState := ⟨[], [], []⟩

/-- Witness for C7: when both LLM calls raise, `orchestrate` returns
`none` at a concrete input, and the session loop answers with the
could-not-devise-a-plan message. -/
theorem C7_malformed_output_yields_no_plan_witness :
    orchestrate c7Parse (.error "boom") (.error "boom again") "hello"
      (some c7State) = none ∧
    session_iteration "hello"
      (orchestrate c7Parse (.error "boom") (.error "boom again") "hello"
        (some c7State)) =
      .noPlanMsg "I couldn't devise a plan. Try rephrasing." := by
  have h := C7_malformed_output_yields_no_plan c7Parse (.error "boom")
    (.error "boom again") "hello" (some c7State)
  have h1 := h.1 "boom" "boom again" rfl rfl
  exact ⟨h1, h.2.2.2.2.2.2.2 h1 (by decide) (by decide)⟩

end Sovereign
